import Mathlib

/-!
Verification of the libcephfs JNI binding (`src/java/native/libcephfs_jni.cc`)
and of the client-session contract it exposes, as described by the design
specification of this repository.

The JNI layer is embedded shallowly: each `Java_com_ceph_fs_CephMount_native_*`
function becomes a Lean function over explicit arguments.  JNI reference
arguments that may be `NULL` become `Option` values; a thrown Java exception
becomes the `Except`-error branch; the integer return value of the C function
becomes the `Except`-ok branch.  The libcephfs library that the JNI layer calls
into is not part of this repository, so its calls are represented by explicit
result parameters (return codes, output records, oracles), and each embedded
operation additionally returns a `Bool` that is `true` exactly when control
reached a call into the libcephfs collaborator ("touched"), and `false` when
the operation returned before any such call.  JNI string/array pinning
(`GetStringUTFChars` / `GetByteArrayElements`) is modelled as always
succeeding: its failure paths depend only on the JVM, not on this code's
logic, and every such path returns before touching the collaborator.
-/

/-! ### Errno constants used by the binding (values from the platform headers) -/

def ENOENT : Int := 2
def EBADF : Int := 9
def EEXIST : Int := 17
def ENOTDIR : Int := 20
def ERANGE : Int := 34
def ENAMETOOLONG : Int := 36
def ELOOP : Int := 40

/-- Java-side outcome of a JNI call: the exception classes the binding can
throw, as selected by the `cephThrow*` helpers and `handle_error` in
`libcephfs_jni.cc`. -/
inductive JErr where
  | nullPointer      -- java/lang/NullPointerException
  | outOfMemory      -- java/lang/OutOfMemoryException
  | internalError    -- java/lang/InternalError
  | indexBounds      -- java/lang/IndexOutOfBoundsException
  | illegalArg       -- java/lang/IllegalArgumentException
  | notMounted       -- com/ceph/fs/CephNotMountedException
  | alreadyMounted   -- com/ceph/fs/CephAlreadyMountedException
  | fileNotFound     -- java/io/FileNotFoundException
  | fileExists       -- com/ceph/fs/CephFileAlreadyExistsException
  | notDirectory     -- com/ceph/fs/CephNotDirectoryException
  | ioException (rc : Int)  -- java/io/IOException strerror(-rc)
  deriving DecidableEq, Repr

/-- Embedding of `handle_error` (libcephfs_jni.cc:209): maps a negative
libcephfs return code to the Java exception the binding throws. -/
def handle_error (rc : Int) : JErr :=
  if rc = -ENOENT then .fileNotFound
  else if rc = -EEXIST then .fileExists
  else if rc = -ENOTDIR then .notDirectory
  else .ioException rc

/-- Result of a JNI-embedded operation: the Java-visible outcome paired with
whether a libcephfs collaborator call was reached. -/
abbrev JniRes (α : Type) := Except JErr α × Bool

/-! ### Open-flag and setattr-mask fixups (libcephfs_jni.cc:86 and :108).
The `O_*` and `CEPH_SETATTR_*` target values come from the external platform
and libcephfs headers. -/

def JAVA_O_RDONLY : Nat := 1
def JAVA_O_RDWR : Nat := 2
def JAVA_O_APPEND : Nat := 4
def JAVA_O_CREAT : Nat := 8
def JAVA_O_TRUNC : Nat := 16
def JAVA_O_EXCL : Nat := 32
def JAVA_O_WRONLY : Nat := 64

def O_RDONLY : Nat := 0
def O_WRONLY : Nat := 1
def O_RDWR : Nat := 2
def O_CREAT : Nat := 0x40
def O_EXCL : Nat := 0x80
def O_TRUNC : Nat := 0x200
def O_APPEND : Nat := 0x400

/-- Embedding of `fixup_open_flags` (libcephfs_jni.cc:86). -/
def fixup_open_flags (jflags : Nat) : Nat :=
  (if jflags &&& JAVA_O_RDONLY ≠ 0 then O_RDONLY else 0) |||
  (if jflags &&& JAVA_O_RDWR ≠ 0 then O_RDWR else 0) |||
  (if jflags &&& JAVA_O_APPEND ≠ 0 then O_APPEND else 0) |||
  (if jflags &&& JAVA_O_CREAT ≠ 0 then O_CREAT else 0) |||
  (if jflags &&& JAVA_O_TRUNC ≠ 0 then O_TRUNC else 0) |||
  (if jflags &&& JAVA_O_EXCL ≠ 0 then O_EXCL else 0) |||
  (if jflags &&& JAVA_O_WRONLY ≠ 0 then O_WRONLY else 0)

def JAVA_SETATTR_MODE : Nat := 1
def JAVA_SETATTR_UID : Nat := 2
def JAVA_SETATTR_GID : Nat := 4
def JAVA_SETATTR_MTIME : Nat := 8
def JAVA_SETATTR_ATIME : Nat := 16

def CEPH_SETATTR_MODE : Nat := 1
def CEPH_SETATTR_UID : Nat := 2
def CEPH_SETATTR_GID : Nat := 4
def CEPH_SETATTR_MTIME : Nat := 8
def CEPH_SETATTR_ATIME : Nat := 16

/-- Embedding of `fixup_attr_mask` (libcephfs_jni.cc:108). -/
def fixup_attr_mask (jmask : Nat) : Nat :=
  (if jmask &&& JAVA_SETATTR_MODE ≠ 0 then CEPH_SETATTR_MODE else 0) |||
  (if jmask &&& JAVA_SETATTR_UID ≠ 0 then CEPH_SETATTR_UID else 0) |||
  (if jmask &&& JAVA_SETATTR_GID ≠ 0 then CEPH_SETATTR_GID else 0) |||
  (if jmask &&& JAVA_SETATTR_MTIME ≠ 0 then CEPH_SETATTR_MTIME else 0) |||
  (if jmask &&& JAVA_SETATTR_ATIME ≠ 0 then CEPH_SETATTR_ATIME else 0)

def JAVA_SEEK_SET : Int := 1
def JAVA_SEEK_CUR : Int := 2
def JAVA_SEEK_END : Int := 3

def JAVA_XATTR_CREATE : Int := 1
def JAVA_XATTR_REPLACE : Int := 2
def JAVA_XATTR_NONE : Int := 3

/-! ### Stat records -/

/-- A `struct timespec` as found in `struct stat`: seconds and a nanosecond
part in `[0, 10^9)`. -/
structure Timespec where
  sec : Int
  nsec : Nat
  deriving DecidableEq, Repr

/-- The fields of the C `struct stat` that the binding reads. -/
structure CStat where
  st_mode : Nat
  st_uid : Nat
  st_gid : Nat
  st_size : Nat
  st_blksize : Nat
  st_blocks : Nat
  st_mtim : Timespec
  st_atim : Timespec
  deriving DecidableEq, Repr

/-- The fields of the Java `com.ceph.fs.CephStat` object the binding writes. -/
structure CephStat where
  mode : Nat
  uid : Nat
  gid : Nat
  size : Nat
  blksize : Nat
  blocks : Nat
  m_time : Int
  a_time : Int
  is_file : Bool
  is_directory : Bool
  is_symlink : Bool
  deriving DecidableEq, Repr

def S_IFMT : Nat := 0xF000
def S_IFREG : Nat := 0x8000
def S_IFDIR : Nat := 0x4000
def S_IFLNK : Nat := 0xA000

def S_ISREG (m : Nat) : Bool := m &&& S_IFMT == S_IFREG
def S_ISDIR (m : Nat) : Bool := m &&& S_IFMT == S_IFDIR
def S_ISLNK (m : Nat) : Bool := m &&& S_IFMT == S_IFLNK

/-- Embedding of `fill_cephstat` (libcephfs_jni.cc:1192), shared by the
path-based `stat` and `lstat` entry points.  The time fields are encoded as
`tv_sec * 1000 + tv_nsec / 1000000` (milliseconds). -/
def fill_cephstat (st : CStat) : CephStat :=
  { mode := st.st_mode
    uid := st.st_uid
    gid := st.st_gid
    size := st.st_size
    blksize := st.st_blksize
    blocks := st.st_blocks
    m_time := st.st_mtim.sec * 1000 + (st.st_mtim.nsec / 1000000 : Nat)
    a_time := st.st_atim.sec * 1000 + (st.st_atim.nsec / 1000000 : Nat)
    is_file := S_ISREG st.st_mode
    is_directory := S_ISDIR st.st_mode
    is_symlink := S_ISLNK st.st_mode }

/-- Embedding of the field stores inlined in
`Java_com_ceph_fs_CephMount_native_1ceph_1fstat` (libcephfs_jni.cc:1773-1788).
Unlike `fill_cephstat` it divides `tv_nsec` by `1000`, and it does not store
the `is_file` / `is_directory` / `is_symlink` fields, so those keep whatever
value the Java object already held (`prev`). -/
def fstat_fill (prev : CephStat) (st : CStat) : CephStat :=
  { prev with
    mode := st.st_mode
    uid := st.st_uid
    gid := st.st_gid
    size := st.st_size
    blksize := st.st_blksize
    blocks := st.st_blocks
    m_time := st.st_mtim.sec * 1000 + (st.st_mtim.nsec / 1000 : Nat)
    a_time := st.st_atim.sec * 1000 + (st.st_atim.nsec / 1000 : Nat) }

/-! ### Simple JNI entry points (libcephfs_jni.cc)

Each embedding takes the libcephfs collaborator's reply as an explicit
parameter (`rc`, output records), the mount predicate `ceph_is_mounted` as
`mounted : Bool`, and the nullable Java arguments as `Option` values, in the
exact order the C function checks them.  The second component records whether
a libcephfs collaborator call was reached. -/

/-- The fields of the Java `com.ceph.fs.CephStatVFS` object written by `statfs`. -/
structure CephStatVFS where
  bsize : Nat
  frsize : Nat
  blocks : Nat
  bavail : Nat
  files : Nat
  fsid : Nat
  namemax : Nat
  deriving DecidableEq, Repr

/-- Embedding of `native_ceph_statfs` (libcephfs_jni.cc:605). -/
def native_ceph_statfs (rc : Int) (stv : CephStatVFS) (mounted : Bool)
    (path : Option String) (jstv : Option Unit) : JniRes CephStatVFS :=
  match path with
  | none => (.error .nullPointer, false)
  | some _ =>
  match jstv with
  | none => (.error .nullPointer, false)
  | some _ =>
    if !mounted then (.error .notMounted, false)
    else if rc ≠ 0 then (.error (handle_error rc), true)
    else (.ok stv, true)

/-- Embedding of `native_ceph_getcwd` (libcephfs_jni.cc:653); `cwd` is the
string returned by `ceph_getcwd`, `none` standing for a `NULL` return. -/
def native_ceph_getcwd (cwd : Option String) (mounted : Bool) : JniRes String :=
  if !mounted then (.error .notMounted, false)
  else match cwd with
    | none => (.error .outOfMemory, true)
    | some s => (.ok s, true)

/-- Embedding of `native_ceph_chdir` (libcephfs_jni.cc:680). -/
def native_ceph_chdir (rc : Int) (mounted : Bool) (path : Option String) : JniRes Int :=
  match path with
  | none => (.error .nullPointer, false)
  | some _ =>
    if !mounted then (.error .notMounted, false)
    else if rc ≠ 0 then (.error (handle_error rc), true)
    else (.ok rc, true)

/-- Embedding of `native_ceph_link` (libcephfs_jni.cc:843). -/
def native_ceph_link (rc : Int) (mounted : Bool)
    (oldpath newpath : Option String) : JniRes Int :=
  match oldpath with
  | none => (.error .nullPointer, false)
  | some _ =>
  match newpath with
  | none => (.error .nullPointer, false)
  | some _ =>
    if !mounted then (.error .notMounted, false)
    else if rc ≠ 0 then (.error (handle_error rc), true)
    else (.ok rc, true)

/-- Embedding of `native_ceph_unlink` (libcephfs_jni.cc:889). -/
def native_ceph_unlink (rc : Int) (mounted : Bool) (path : Option String) : JniRes Int :=
  match path with
  | none => (.error .nullPointer, false)
  | some _ =>
    if !mounted then (.error .notMounted, false)
    else if rc ≠ 0 then (.error (handle_error rc), true)
    else (.ok rc, true)

/-- Embedding of `native_ceph_rename` (libcephfs_jni.cc:925). -/
def native_ceph_rename (rc : Int) (mounted : Bool)
    (from_ to_ : Option String) : JniRes Int :=
  match from_ with
  | none => (.error .nullPointer, false)
  | some _ =>
  match to_ with
  | none => (.error .nullPointer, false)
  | some _ =>
    if !mounted then (.error .notMounted, false)
    else if rc ≠ 0 then (.error (handle_error rc), true)
    else (.ok rc, true)

/-- Embedding of `native_ceph_mkdir` (libcephfs_jni.cc:970). -/
def native_ceph_mkdir (rc : Int) (mounted : Bool) (path : Option String)
    (mode : Nat) : JniRes Int :=
  match path with
  | none => (.error .nullPointer, false)
  | some _ =>
    if !mounted then (.error .notMounted, false)
    else if rc ≠ 0 then (.error (handle_error rc), true)
    else (.ok rc, true)

/-- Embedding of `native_ceph_mkdirs` (libcephfs_jni.cc:1006). -/
def native_ceph_mkdirs (rc : Int) (mounted : Bool) (path : Option String)
    (mode : Nat) : JniRes Int :=
  match path with
  | none => (.error .nullPointer, false)
  | some _ =>
    if !mounted then (.error .notMounted, false)
    else if rc ≠ 0 then (.error (handle_error rc), true)
    else (.ok rc, true)

/-- Embedding of `native_ceph_rmdir` (libcephfs_jni.cc:1042). -/
def native_ceph_rmdir (rc : Int) (mounted : Bool) (path : Option String) : JniRes Int :=
  match path with
  | none => (.error .nullPointer, false)
  | some _ =>
    if !mounted then (.error .notMounted, false)
    else if rc ≠ 0 then (.error (handle_error rc), true)
    else (.ok rc, true)

/-- Embedding of `native_ceph_symlink` (libcephfs_jni.cc:1151). -/
def native_ceph_symlink (rc : Int) (mounted : Bool)
    (oldpath newpath : Option String) : JniRes Int :=
  match oldpath with
  | none => (.error .nullPointer, false)
  | some _ =>
  match newpath with
  | none => (.error .nullPointer, false)
  | some _ =>
    if !mounted then (.error .notMounted, false)
    else if rc ≠ 0 then (.error (handle_error rc), true)
    else (.ok rc, true)

/-- Embedding of `native_ceph_lstat` (libcephfs_jni.cc:1226); `st` is the
record filled in by `ceph_lstat` when `rc = 0`. -/
def native_ceph_lstat (rc : Int) (st : CStat) (mounted : Bool)
    (path : Option String) (jstat : Option CephStat) : JniRes CephStat :=
  match path with
  | none => (.error .nullPointer, false)
  | some _ =>
  match jstat with
  | none => (.error .nullPointer, false)
  | some _ =>
    if !mounted then (.error .notMounted, false)
    else if rc ≠ 0 then (.error (handle_error rc), true)
    else (.ok (fill_cephstat st), true)

/-- Embedding of `native_ceph_stat` (libcephfs_jni.cc:1268). -/
def native_ceph_stat (rc : Int) (st : CStat) (mounted : Bool)
    (path : Option String) (jstat : Option CephStat) : JniRes CephStat :=
  match path with
  | none => (.error .nullPointer, false)
  | some _ =>
  match jstat with
  | none => (.error .nullPointer, false)
  | some _ =>
    if !mounted then (.error .notMounted, false)
    else if rc ≠ 0 then (.error (handle_error rc), true)
    else (.ok (fill_cephstat st), true)

/-- Embedding of `native_ceph_setattr` (libcephfs_jni.cc:1311): the stat
record to apply is read from the Java object, the mask is translated with
`fixup_attr_mask`. -/
def native_ceph_setattr (rc : Int) (mounted : Bool) (path : Option String)
    (jstat : Option CephStat) (mask : Nat) : JniRes Int :=
  match path with
  | none => (.error .nullPointer, false)
  | some _ =>
  match jstat with
  | none => (.error .nullPointer, false)
  | some _ =>
    if !mounted then (.error .notMounted, false)
    else
      let _ := fixup_attr_mask mask
      if rc ≠ 0 then (.error (handle_error rc), true)
      else (.ok rc, true)

/-- Embedding of `native_ceph_chmod` (libcephfs_jni.cc:1357). -/
def native_ceph_chmod (rc : Int) (mounted : Bool) (path : Option String)
    (mode : Nat) : JniRes Int :=
  match path with
  | none => (.error .nullPointer, false)
  | some _ =>
    if !mounted then (.error .notMounted, false)
    else if rc ≠ 0 then (.error (handle_error rc), true)
    else (.ok rc, true)

/-- Embedding of `native_ceph_fchmod` (libcephfs_jni.cc:1393). -/
def native_ceph_fchmod (rc : Int) (mounted : Bool) (fd : Int)
    (mode : Nat) : JniRes Int :=
  if !mounted then (.error .notMounted, false)
  else if rc ≠ 0 then (.error (handle_error rc), true)
  else (.ok rc, true)

/-- Embedding of `native_ceph_truncate` (libcephfs_jni.cc:1419). -/
def native_ceph_truncate (rc : Int) (mounted : Bool) (path : Option String)
    (size : Int) : JniRes Int :=
  match path with
  | none => (.error .nullPointer, false)
  | some _ =>
    if !mounted then (.error .notMounted, false)
    else if rc ≠ 0 then (.error (handle_error rc), true)
    else (.ok rc, true)

/-- Embedding of `native_ceph_open` (libcephfs_jni.cc:1455): flags go through
`fixup_open_flags`; a negative return is an error, a non-negative one the
descriptor. -/
def native_ceph_open (rc : Int) (mounted : Bool) (path : Option String)
    (flags : Nat) (mode : Nat) : JniRes Int :=
  match path with
  | none => (.error .nullPointer, false)
  | some _ =>
    if !mounted then (.error .notMounted, false)
    else
      let _ := fixup_open_flags flags
      if rc < 0 then (.error (handle_error rc), true)
      else (.ok rc, true)

/-- Embedding of `native_ceph_open_layout` (libcephfs_jni.cc:1492); the data
pool name may be `NULL`, which is passed through, not rejected. -/
def native_ceph_open_layout (rc : Int) (mounted : Bool) (path : Option String)
    (flags : Nat) (mode : Nat) (stripe_unit stripe_count object_size : Int)
    (data_pool : Option String) : JniRes Int :=
  match path with
  | none => (.error .nullPointer, false)
  | some _ =>
    if !mounted then (.error .notMounted, false)
    else
      let _ := fixup_open_flags flags
      if rc < 0 then (.error (handle_error rc), true)
      else (.ok rc, true)

/-- Embedding of `native_ceph_close` (libcephfs_jni.cc:1544). -/
def native_ceph_close (rc : Int) (mounted : Bool) (fd : Int) : JniRes Int :=
  if !mounted then (.error .notMounted, false)
  else if rc ≠ 0 then (.error (handle_error rc), true)
  else (.ok rc, true)

/-- Embedding of `native_ceph_lseek` (libcephfs_jni.cc:1570): the mount check
precedes the whence validation; an unknown whence throws
`IllegalArgumentException` before any collaborator call. -/
def native_ceph_lseek (rc : Int) (mounted : Bool) (fd : Int) (offset : Int)
    (whence : Int) : JniRes Int :=
  if !mounted then (.error .notMounted, false)
  else if whence ≠ JAVA_SEEK_SET ∧ whence ≠ JAVA_SEEK_CUR ∧ whence ≠ JAVA_SEEK_END then
    (.error .illegalArg, false)
  else if rc < 0 then (.error (handle_error rc), true)
  else (.ok rc, true)

/-- Embedding of `native_ceph_read` (libcephfs_jni.cc:1613): argument checks
in source order (null buffer, negative size, mount state, size vs buffer
length). -/
def native_ceph_read (rc : Int) (mounted : Bool) (fd : Int)
    (buf : Option (List Char)) (size : Int) (offset : Int) : JniRes Int :=
  match buf with
  | none => (.error .nullPointer, false)
  | some b =>
    if size < 0 then (.error .indexBounds, false)
    else if !mounted then (.error .notMounted, false)
    else if size > (b.length : Int) then (.error .indexBounds, false)
    else if rc < 0 then (.error (handle_error rc), true)
    else (.ok rc, true)

/-- Embedding of `native_ceph_write` (libcephfs_jni.cc:1655). -/
def native_ceph_write (rc : Int) (mounted : Bool) (fd : Int)
    (buf : Option (List Char)) (size : Int) (offset : Int) : JniRes Int :=
  match buf with
  | none => (.error .nullPointer, false)
  | some b =>
    if size < 0 then (.error .indexBounds, false)
    else if !mounted then (.error .notMounted, false)
    else if size > (b.length : Int) then (.error .indexBounds, false)
    else if rc < 0 then (.error (handle_error rc), true)
    else (.ok rc, true)

/-- Embedding of `native_ceph_ftruncate` (libcephfs_jni.cc:1698). -/
def native_ceph_ftruncate (rc : Int) (mounted : Bool) (fd : Int)
    (size : Int) : JniRes Int :=
  if !mounted then (.error .notMounted, false)
  else if rc ≠ 0 then (.error (handle_error rc), true)
  else (.ok rc, true)

/-- Embedding of `native_ceph_fsync` (libcephfs_jni.cc:1725).  Note: unlike
every other I/O entry point, this function performs no `CHECK_MOUNTED`; it
calls `ceph_fsync` unconditionally. -/
def native_ceph_fsync (rc : Int) (mounted : Bool) (fd : Int)
    (dataonly : Bool) : JniRes Int :=
  if rc ≠ 0 then (.error (handle_error rc), true)
  else (.ok rc, true)

/-- Embedding of `native_ceph_fstat` (libcephfs_jni.cc:1750); field stores are
the inlined ones modelled by `fstat_fill`. -/
def native_ceph_fstat (rc : Int) (st : CStat) (mounted : Bool) (fd : Int)
    (jstat : Option CephStat) : JniRes CephStat :=
  match jstat with
  | none => (.error .nullPointer, false)
  | some prev =>
    if !mounted then (.error .notMounted, false)
    else if rc ≠ 0 then (.error (handle_error rc), true)
    else (.ok (fstat_fill prev st), true)

/-- Embedding of `native_ceph_removexattr` (libcephfs_jni.cc:2156). -/
def native_ceph_removexattr (rc : Int) (mounted : Bool)
    (path name : Option String) : JniRes Int :=
  match path with
  | none => (.error .nullPointer, false)
  | some _ =>
  match name with
  | none => (.error .nullPointer, false)
  | some _ =>
    if !mounted then (.error .notMounted, false)
    else if rc ≠ 0 then (.error (handle_error rc), true)
    else (.ok rc, true)

/-- Embedding of `native_ceph_lremovexattr` (libcephfs_jni.cc:2202). -/
def native_ceph_lremovexattr (rc : Int) (mounted : Bool)
    (path name : Option String) : JniRes Int :=
  match path with
  | none => (.error .nullPointer, false)
  | some _ =>
  match name with
  | none => (.error .nullPointer, false)
  | some _ =>
    if !mounted then (.error .notMounted, false)
    else if rc ≠ 0 then (.error (handle_error rc), true)
    else (.ok rc, true)

/-- Embedding of `native_ceph_setxattr` (libcephfs_jni.cc:2248): null and
negative-size checks, then the mount check, then the buffer bound and the
disposition-flag switch (an unknown flag throws `IllegalArgumentException`
before the collaborator call). -/
def native_ceph_setxattr (rc : Int) (mounted : Bool) (path name : Option String)
    (buf : Option (List Char)) (size : Int) (flags : Int) : JniRes Int :=
  match path with
  | none => (.error .nullPointer, false)
  | some _ =>
  match name with
  | none => (.error .nullPointer, false)
  | some _ =>
  match buf with
  | none => (.error .nullPointer, false)
  | some b =>
    if size < 0 then (.error .indexBounds, false)
    else if !mounted then (.error .notMounted, false)
    else if size > (b.length : Int) then (.error .indexBounds, false)
    else if flags ≠ JAVA_XATTR_CREATE ∧ flags ≠ JAVA_XATTR_REPLACE ∧ flags ≠ JAVA_XATTR_NONE then
      (.error .illegalArg, false)
    else if rc ≠ 0 then (.error (handle_error rc), true)
    else (.ok rc, true)

/-- Embedding of `native_ceph_lsetxattr` (libcephfs_jni.cc:2330). -/
def native_ceph_lsetxattr (rc : Int) (mounted : Bool) (path name : Option String)
    (buf : Option (List Char)) (size : Int) (flags : Int) : JniRes Int :=
  match path with
  | none => (.error .nullPointer, false)
  | some _ =>
  match name with
  | none => (.error .nullPointer, false)
  | some _ =>
  match buf with
  | none => (.error .nullPointer, false)
  | some b =>
    if size < 0 then (.error .indexBounds, false)
    else if !mounted then (.error .notMounted, false)
    else if size > (b.length : Int) then (.error .indexBounds, false)
    else if flags ≠ JAVA_XATTR_CREATE ∧ flags ≠ JAVA_XATTR_REPLACE ∧ flags ≠ JAVA_XATTR_NONE then
      (.error .illegalArg, false)
    else if rc ≠ 0 then (.error (handle_error rc), true)
    else (.ok rc, true)

/-- Embedding of `native_ceph_get_file_stripe_unit` (libcephfs_jni.cc:2412). -/
def native_ceph_get_file_stripe_unit (rc : Int) (mounted : Bool)
    (fd : Int) : JniRes Int :=
  if !mounted then (.error .notMounted, false)
  else if rc < 0 then (.error (handle_error rc), true)
  else (.ok rc, true)

/-- Embedding of `native_ceph_get_file_replication` (libcephfs_jni.cc:2438). -/
def native_ceph_get_file_replication (rc : Int) (mounted : Bool)
    (fd : Int) : JniRes Int :=
  if !mounted then (.error .notMounted, false)
  else if rc < 0 then (.error (handle_error rc), true)
  else (.ok rc, true)

/-! ### Directory enumeration model

The libcephfs client core (`ceph_opendir` / `ceph_readdir` / `ceph_rewinddir`
/ `ceph_getdnames`) is not part of this repository; only its callers (the JNI
binding) and its tests are.  The definitions below are therefore modelled from
the specification.  Directory entry names are byte strings without interior
NUL, represented as `List Char`. -/

/-- NUL terminator used by the packed `getdnames` buffer format. -/
def NUL : Char := Char.ofNat 0

/-- Modelled from the spec: the state of one directory as known to the
metadata service — its entries other than `"."` and `".."`. -/
structure DirState where
  names : List (List Char)

def dotName : List Char := ['.']

def dotdotName : List Char := ['.', '.']

/-- Modelled from the spec: the full enumeration a directory cursor delivers —
`"."` then `".."` first, in that order, then the directory's other contents. -/
def cursorEntries (d : DirState) : List (List Char) :=
  dotName :: dotdotName :: d.names

/-- Modelled from the spec: an open directory cursor (`ceph_dir_result`) — the
directory it enumerates plus the number of logical entries already
delivered. -/
structure DirCursor where
  dir : DirState
  pos : Nat

/-- Modelled from the spec: `ceph_opendir` yields a cursor at position 0. -/
def ceph_opendir_core (d : DirState) : DirCursor := ⟨d, 0⟩

/-- Modelled from the spec: `ceph_readdir` delivers the next entry, or `none`
at end of directory (an empty result, not an error). -/
def ceph_readdir_core (c : DirCursor) : Option (List Char) × DirCursor :=
  match (cursorEntries c.dir).drop c.pos with
  | [] => (none, c)
  | e :: _ => (some e, ⟨c.dir, c.pos + 1⟩)

/-- Modelled from the spec: `ceph_rewinddir` restores the initial position. -/
def ceph_rewinddir_core (c : DirCursor) : DirCursor := ⟨c.dir, 0⟩

/-- Byte cost of one name in the packed `getdnames` buffer: the name plus its
NUL terminator. -/
def packedLen (s : List Char) : Nat := s.length + 1

/-- Packed buffer layout produced by `ceph_getdnames`: each name followed by a
NUL terminator. -/
def packNames (l : List (List Char)) : List Char :=
  l.foldr (fun s acc => s ++ NUL :: acc) []

/-- Longest prefix of the remaining entries whose packed encoding fits in
`room` bytes. -/
def takeFit : List (List Char) → Nat → List (List Char)
  | [], _ => []
  | s :: rest, room =>
    if packedLen s ≤ room then s :: takeFit rest (room - packedLen s) else []

/-- Modelled from the spec: `ceph_getdnames` — a bulk, resumable read of
whole entries into a `buflen`-byte buffer.  If not even one remaining entry
fits, it fails with `-ERANGE` and consumes nothing; at end of directory it
returns an empty chunk (return value 0); otherwise it packs as many whole
entries as fit and advances the cursor past exactly those entries. -/
def ceph_getdnames_core (c : DirCursor) (buflen : Nat) :
    Except Int (List (List Char)) × DirCursor :=
  match (cursorEntries c.dir).drop c.pos with
  | [] => (.ok [], c)
  | rem@(_ :: _) =>
    match takeFit rem buflen with
    | [] => (.error (-ERANGE), c)
    | chunk@(_ :: _) => (.ok chunk, ⟨c.dir, c.pos + chunk.length⟩)

/-- Parse of a packed name buffer, as performed entry-by-entry by the loops at
libcephfs_jni.cc:781 and :2019 (`string(buf + bufpos)`,
`bufpos += ent->size() + 1`). -/
def parseNames : List Char → List (List Char)
  | [] => []
  | c :: rest =>
    if c = NUL then [] :: parseNames rest
    else
      match parseNames rest with
      | [] => [[c]]
      | n :: ns => (c :: n) :: ns

/-- Filter applied by `native_ceph_listdir` (libcephfs_jni.cc:790): keep a
name iff it differs from both `"."` and `".."`. -/
def keepName (s : List Char) : Bool :=
  !(s == dotName) && !(s == dotdotName)

/-- Embedding of the `ceph_getdnames` loop of `native_ceph_listdir`
(libcephfs_jni.cc:760-798).  `alloc` says whether the heap allocation of a
given attempt succeeds; fuel bounds the recursion (the C loop is unbounded)
and `none` marks fuel exhaustion, which no theorem relies on.  The result is
paired with a flag recording whether `ceph_closedir` was executed on the exit
path taken (in the C: the `out:` label and the normal return both close). -/
def listdir_loop (alloc : Nat → Bool) :
    Nat → DirCursor → Nat → Nat → List (List Char) →
    Option (Except JErr (List (List Char)) × Bool)
  | 0, _, _, _, _ => none
  | fuel + 1, c, buflen, attempt, acc =>
    match ceph_getdnames_core c buflen with
    | (.error _, c2) =>
      -- -ERANGE: double the buffer and retry; allocation failure throws
      -- OutOfMemory and goes to `out:`, which closes the cursor.
      if alloc attempt then listdir_loop alloc fuel c2 (buflen * 2) (attempt + 1) acc
      else some (.error .outOfMemory, true)
    | (.ok chunk, c2) =>
      let buf := packNames chunk
      if buf.length = 0 then some (.ok acc, true)  -- ret ≤ 0: break, close, return
      else
        listdir_loop alloc fuel c2 buflen attempt
          (acc ++ (parseNames buf).filter keepName)

/-- Embedding of `native_ceph_listdir` (libcephfs_jni.cc:716): null and mount
checks, `ceph_opendir` (whose failure returns before any cursor exists, hence
`closed = false`), then the initial 256-byte buffer allocation and the
getdnames loop.  The outer `Bool` records whether a collaborator call was
reached. -/
def native_ceph_listdir (mounted : Bool) (path : Option String)
    (dres : Except Int DirState) (alloc : Nat → Bool) (fuel : Nat) :
    Option (Except JErr (List (List Char)) × Bool) × Bool :=
  match path with
  | none => (some (.error .nullPointer, false), false)
  | some _ =>
    if !mounted then (some (.error .notMounted, false), false)
    else
      match dres with
      | .error rc => (some (.error (handle_error rc), false), true)
      | .ok d =>
        if alloc 0 then (listdir_loop alloc fuel (ceph_opendir_core d) 256 1 [], true)
        else (some (.error .outOfMemory, true), true)

/-! ### Extended attribute list model and the listxattr loops -/

/-- Modelled from the spec: `ceph_listxattr` — returns the node's attribute
names packed NUL-terminated if they fit in `buflen` bytes, `-ERANGE`
otherwise. -/
def ceph_listxattr_core (xs : List (List Char)) (buflen : Nat) :
    Except Int (List Char) :=
  let buf := packNames xs
  if buf.length ≤ buflen then .ok buf else .error (-ERANGE)

/-- Embedding of the growth loop of `native_ceph_listxattr`
(libcephfs_jni.cc:1994-2008) and its parse (ibid.:2018-2029): double the
buffer on `-ERANGE` (OutOfMemory if the reallocation fails), then split the
returned buffer at NUL terminators. -/
def listxattr_loop (xs : List (List Char)) (alloc : Nat → Bool) :
    Nat → Nat → Nat → Option (Except JErr (List (List Char)))
  | 0, _, _ => none
  | fuel + 1, buflen, attempt =>
    match ceph_listxattr_core xs buflen with
    | .error _ =>
      if alloc attempt then listxattr_loop xs alloc fuel (buflen * 2) (attempt + 1)
      else some (.error .outOfMemory)
    | .ok buf => some (.ok (parseNames buf))

/-- Embedding of `native_ceph_listxattr` (libcephfs_jni.cc:1964): null and
mount checks, initial 1024-byte buffer, growth loop.  An initial allocation
failure throws OutOfMemory before any collaborator call. -/
def native_ceph_listxattr (xs : List (List Char)) (alloc : Nat → Bool)
    (fuel : Nat) (mounted : Bool) (path : Option String) :
    Option (Except JErr (List (List Char))) × Bool :=
  match path with
  | none => (some (.error .nullPointer), false)
  | some _ =>
    if !mounted then (some (.error .notMounted), false)
    else if alloc 0 then (listxattr_loop xs alloc fuel 1024 1, true)
    else (some (.error .outOfMemory), false)

/-- Embedding of `native_ceph_llistxattr` (libcephfs_jni.cc:2060): identical
structure to `native_ceph_listxattr`, calling the non-following collaborator
variant, whose reply is again the packed attribute names `xs` of the
(unresolved) node. -/
def native_ceph_llistxattr (xs : List (List Char)) (alloc : Nat → Bool)
    (fuel : Nat) (mounted : Bool) (path : Option String) :
    Option (Except JErr (List (List Char))) × Bool :=
  match path with
  | none => (some (.error .nullPointer), false)
  | some _ =>
    if !mounted then (some (.error .notMounted), false)
    else if alloc 0 then (listxattr_loop xs alloc fuel 1024 1, true)
    else (some (.error .outOfMemory), false)

/-! ### conf_get growth loop -/

/-- Modelled from the spec: `ceph_conf_get` — `-ENOENT` for an absent key;
for a present value of text `v`, success needs room for the text plus its NUL
terminator, and a too-small buffer reports `-ENAMETOOLONG`. -/
def ceph_conf_get_core (value : Option (List Char)) (buflen : Nat) : Int :=
  match value with
  | none => -ENOENT
  | some v => if buflen < v.length + 1 then -ENAMETOOLONG else 0

/-- Embedding of the growth loop of `native_ceph_conf_get`
(libcephfs_jni.cc:535-549) and the result dispatch after it (ibid.:553-556):
double on `-ENAMETOOLONG` (OutOfMemory if the reallocation fails); a zero
return yields the value, `-ENOENT` yields a `NULL` string without an
exception, any other error goes through `handle_error`.  The successful
result carries the final buffer size. -/
def conf_get_loop (value : Option (List Char)) (alloc : Nat → Bool) :
    Nat → Nat → Nat → Option (Except JErr (Option (List Char) × Nat))
  | 0, _, _ => none
  | fuel + 1, buflen, attempt =>
    let rc := ceph_conf_get_core value buflen
    if rc = -ENAMETOOLONG then
      if alloc attempt then conf_get_loop value alloc fuel (buflen * 2) (attempt + 1)
      else some (.error .outOfMemory)
    else if rc = 0 then some (.ok (value, buflen))
    else if rc = -ENOENT then some (.ok (none, buflen))
    else some (.error (handle_error rc))

/-- Embedding of `native_ceph_conf_get` (libcephfs_jni.cc:510): permitted in
any lifecycle state (no mount check); initial 128-byte buffer, then the
growth loop. -/
def native_ceph_conf_get (value : Option (List Char)) (alloc : Nat → Bool)
    (fuel : Nat) (opt : Option String) :
    Option (Except JErr (Option (List Char) × Nat)) × Bool :=
  match opt with
  | none => (some (.error .nullPointer), false)
  | some _ =>
    if alloc 0 then (conf_get_loop value alloc fuel 128 1, true)
    else (some (.error .outOfMemory), false)

/-! ### get_file_pool_name probe loop -/

/-- Modelled from the spec: `ceph_get_file_pool_name` — with a zero-length
buffer it reports the required size; with a too-small buffer it fails with
`-ERANGE`; otherwise it fills the buffer and returns the required size. -/
def ceph_get_file_pool_name_core (needed : Nat) (buflen : Nat) : Int :=
  if buflen = 0 then (needed : Int)
  else if buflen < needed then -ERANGE
  else (needed : Int)

/-- Embedding of the probe loop of `native_ceph_get_file_pool_name`
(libcephfs_jni.cc:2483-2499): on `-ERANGE` retry with length 0 to learn the
exact required size, then reallocate to exactly that size and retry
(OutOfMemory if that allocation fails); other negative returns leave the loop
and go through `handle_error`. -/
def pool_name_loop (needed : Nat) (pool : List Char) (alloc : Nat → Bool) :
    Nat → Nat → Nat → Option (Except JErr (List Char))
  | 0, _, _ => none
  | fuel + 1, buflen, attempt =>
    let rc := ceph_get_file_pool_name_core needed buflen
    if rc = -ERANGE then pool_name_loop needed pool alloc fuel 0 attempt
    else if rc < 0 then some (.error (handle_error rc))
    else if buflen = 0 then
      if alloc attempt then pool_name_loop needed pool alloc fuel rc.toNat (attempt + 1)
      else some (.error .outOfMemory)
    else some (.ok pool)

/-- Embedding of `native_ceph_get_file_pool_name` (libcephfs_jni.cc:2464):
mount check, initial 128-byte guess, probe loop.  An initial allocation
failure throws OutOfMemory before any collaborator call. -/
def native_ceph_get_file_pool_name (needed : Nat) (pool : List Char)
    (alloc : Nat → Bool) (fuel : Nat) (mounted : Bool) (fd : Int) :
    Option (Except JErr (List Char)) × Bool :=
  if !mounted then (some (.error .notMounted), false)
  else if alloc 0 then (pool_name_loop needed pool alloc fuel 128 1, true)
  else (some (.error .outOfMemory), false)

/-! ### readlink re-stat-and-retry loop -/

/-- Modelled from the spec: `ceph_readlink` — writes up to `bufsize` bytes of
the current link target text and returns the number written. -/
def ceph_readlink_core (target : List Char) (bufsize : Nat) : Nat :=
  min target.length bufsize

/-- Embedding of the retry loop of `native_ceph_readlink`
(libcephfs_jni.cc:1098-1136).  The link may be replaced concurrently, so the
collaborator is a pair of streams indexed by iteration: `sizes i` is the
`st_size` the i-th `ceph_lstat` records, `targets i` the target text the i-th
`ceph_readlink` sees.  Each iteration allocates `sizes i + 1` bytes (`alloc`
gives the allocation outcome), reads, and — when the read returned more than
`st_size` bytes, i.e. the target grew in between — discards the buffer and
starts over with a fresh lstat.  The lstat and readlink calls themselves are
modelled as succeeding. -/
def readlink_loop (sizes : Nat → Nat) (targets : Nat → List Char)
    (alloc : Nat → Bool) : Nat → Nat → Option (Except JErr (List Char))
  | 0, _ => none
  | fuel + 1, i =>
    let stsize := sizes i
    if alloc i then
      let ret := ceph_readlink_core (targets i) (stsize + 1)
      if ret > stsize then readlink_loop sizes targets alloc fuel (i + 1)
      else some (.ok ((targets i).take ret))
    else some (.error .outOfMemory)

/-- Embedding of `native_ceph_readlink` (libcephfs_jni.cc:1078): null and
mount checks, then the lstat/readlink retry loop (the first collaborator call
is the lstat of iteration 0). -/
def native_ceph_readlink (sizes : Nat → Nat) (targets : Nat → List Char)
    (alloc : Nat → Bool) (fuel : Nat) (mounted : Bool) (path : Option String) :
    Option (Except JErr (List Char)) × Bool :=
  match path with
  | none => (some (.error .nullPointer), false)
  | some _ =>
    if !mounted then (some (.error .notMounted), false)
    else (readlink_loop sizes targets alloc fuel 0, true)

/-! ### getxattr / lgetxattr -/

def ENODATA : Int := 61
def EINVAL : Int := 22

/-- Modelled from the spec: the value-read semantics shared by
`ceph_getxattr` and `ceph_lgetxattr` on a node's attribute value.  A missing
attribute reports `-ENODATA`; a zero-length buffer is a size query returning
the required size; an undersized non-zero buffer fails with `-ERANGE`;
otherwise the value is copied and its size returned. -/
def getxattr_sem (val : Option (List Char)) (bufsize : Nat) : Int :=
  match val with
  | none => -ENODATA
  | some v =>
    if bufsize = 0 then (v.length : Int)
    else if bufsize < v.length then -ERANGE
    else (v.length : Int)

/-- Embedding of `native_ceph_getxattr` (libcephfs_jni.cc:1822): null and
mount checks; a `NULL` byte array selects a size-only lookup (`buf_size = 0`);
after a `-ERANGE` reply the call is repeated with length 0 so the caller
receives the required size instead of the range error.  `val` is the
attribute value of the node the collaborator resolves the path to. -/
def native_ceph_getxattr (val : Option (List Char)) (mounted : Bool)
    (path name : Option String) (buf : Option Nat) : JniRes Int :=
  match path with
  | none => (.error .nullPointer, false)
  | some _ =>
  match name with
  | none => (.error .nullPointer, false)
  | some _ =>
    if !mounted then (.error .notMounted, false)
    else
      let buf_size := match buf with | none => 0 | some n => n
      let r0 := getxattr_sem val buf_size
      let ret := if r0 = -ERANGE then getxattr_sem val 0 else r0
      if ret < 0 then (.error (handle_error ret), true)
      else (.ok ret, true)

/-- Embedding of `native_ceph_lgetxattr` (libcephfs_jni.cc:1893): identical
structure, calling the non-following collaborator variant; `val` is the
attribute value of the unresolved (link) node itself. -/
def native_ceph_lgetxattr (val : Option (List Char)) (mounted : Bool)
    (path name : Option String) (buf : Option Nat) : JniRes Int :=
  match path with
  | none => (.error .nullPointer, false)
  | some _ =>
  match name with
  | none => (.error .nullPointer, false)
  | some _ =>
    if !mounted then (.error .notMounted, false)
    else
      let buf_size := match buf with | none => 0 | some n => n
      let r0 := getxattr_sem val buf_size
      let ret := if r0 = -ERANGE then getxattr_sem val 0 else r0
      if ret < 0 then (.error (handle_error ret), true)
      else (.ok ret, true)

/-! ### Path resolution with symlink-loop detection

The Path Resolver lives in the libcephfs client core, which is not part of
this repository; it is modelled from the specification (§4.2): split the path
into components, walk from the root, substitute symlink targets (an absolute
target restarts at the root, a relative one continues from the link's parent
directory), and charge every symlink expansion against a resolution-depth
counter with the conventional bound of 40. -/

/-- Conventional symlink-loop bound (spec §4.2 / §9). -/
def SYMLOOP_MAX : Nat := 40

/-- Modelled from the spec: a filesystem tree as the metadata service
presents it — regular files, directories with named children, symlinks.
Names and link targets are byte strings (`List Char`), as elsewhere in this
development. -/
inductive FsTree where
  | file
  | dir (children : List (List Char × FsTree))
  | symlink (target : List Char)
  deriving Repr

/-- Accumulator pass splitting a path at `'/'` separators. -/
def splitPathAux : List Char → List Char → List (List Char)
  | [], acc => [acc.reverse]
  | c :: rest, acc =>
    if c = '/' then acc.reverse :: splitPathAux rest []
    else splitPathAux rest (c :: acc)

/-- Modelled from the spec: split a path into components; empty components
produced by consecutive separators (and by leading or trailing separators)
are ignored. -/
def splitPath (p : List Char) : List (List Char) :=
  (splitPathAux p []).filter (fun c => c ≠ [])

/-- Lookup of one child by name in a directory's entry list. -/
def childLookup (cs : List (List Char × FsTree)) (name : List Char) : Option FsTree :=
  (cs.find? (fun c => c.1 == name)).map Prod.snd

/-- An absolute path starts with the separator. -/
def isAbsolute : List Char → Bool
  | '/' :: _ => true
  | _ => false

/-- Modelled from the spec: the resolution walk.  `depth` is the remaining
symlink-expansion budget; expanding a link when it is exhausted fails with
`-ELOOP` (an absolute target restarts at the root, a relative one continues
from the link's parent directory).  Walking into a non-directory fails with
`-ENOTDIR`, a missing component with `-ENOENT`. -/
def resolveWalk (root : FsTree) (depth : Nat) (cur : FsTree)
    (comps : List (List Char)) : Except Int FsTree :=
  match comps with
  | [] => .ok cur
  | comp :: rest =>
    match cur with
    | .file => .error (-ENOTDIR)
    | .symlink _ => .error (-ENOTDIR)
    | .dir cs =>
      match childLookup cs comp with
      | none => .error (-ENOENT)
      | some (.symlink t) =>
        match depth with
        | 0 => .error (-ELOOP)
        | d + 1 =>
          if isAbsolute t then resolveWalk root d root (splitPath t ++ rest)
          else resolveWalk root d (.dir cs) (splitPath t ++ rest)
      | some child => resolveWalk root depth child rest
  termination_by (depth, comps.length)

/-- Modelled from the spec: the path-resolution part of `ceph_open` — resolve
the path, following terminal symlinks, with the depth bound; a successful
resolution yields a non-negative descriptor, a failed one propagates the
resolution error (in particular `-ELOOP`). -/
def ceph_open_resolve (root : FsTree) (path : List Char) : Except Int Nat :=
  match resolveWalk root SYMLOOP_MAX root (splitPath path) with
  | .error rc => .error rc
  | .ok _ => .ok 0

/-! ### Handle table and per-descriptor operations

The Handle Table also lives in the client core outside this repository and is
modelled from the specification (§4.3): descriptor-based operations first
validate that the descriptor is currently open; an unknown or negative
descriptor fails with `-EBADF` and the check has no side effect. -/

/-- Modelled from the spec: the state of one open file handle. -/
structure OpenFile where
  node : Nat
  flags : Nat
  offset : Nat
  stripe_unit : Nat
  replication : Nat
  pool : List Char

/-- Modelled from the spec: the session's table of open handles together with
the per-node state the descriptor operations act on. -/
structure FileTable where
  handles : List (Nat × OpenFile)
  data : Nat → List Char
  modes : Nat → Nat
  owners : Nat → Nat × Nat

/-- Modelled from the spec: descriptor validation — a negative descriptor is
never open, otherwise the handle table decides. -/
def lookupFd (t : FileTable) (fd : Int) : Option OpenFile :=
  if fd < 0 then none
  else (t.handles.find? (fun h => (h.1 : Int) == fd)).map Prod.snd

/-- Pointwise update of the handle stored for `fd`. -/
def updateFd (t : FileTable) (fd : Int) (f : OpenFile → OpenFile) : FileTable :=
  { t with handles := t.handles.map (fun h => if (h.1 : Int) == fd then (h.1, f h.2) else h) }

/-- Zero-padded resize used by truncate: extending pads with NUL bytes,
shrinking discards trailing data (spec §4.5). -/
def truncateTo (content : List Char) (size : Nat) : List Char :=
  if size ≤ content.length then content.take size
  else content ++ List.replicate (size - content.length) NUL

/-- Overwrite of `bs` at offset `o`, zero-padding any gap. -/
def writeAt (content : List Char) (o : Nat) (bs : List Char) : List Char :=
  let padded := content ++ List.replicate (o - content.length) NUL
  padded.take o ++ bs ++ padded.drop (o + bs.length)

/-- Modelled from the spec: `ceph_lseek` on a descriptor. -/
def ceph_lseek_fd (t : FileTable) (fd : Int) (off : Int) (whence : Int) :
    Except Int Int × FileTable :=
  match lookupFd t fd with
  | none => (.error (-EBADF), t)
  | some h =>
    let base : Int :=
      if whence = JAVA_SEEK_SET then 0
      else if whence = JAVA_SEEK_CUR then (h.offset : Int)
      else ((t.data h.node).length : Int)
    let pos := base + off
    if whence ≠ JAVA_SEEK_SET ∧ whence ≠ JAVA_SEEK_CUR ∧ whence ≠ JAVA_SEEK_END then
      (.error (-EINVAL), t)
    else if pos < 0 then (.error (-EINVAL), t)
    else (.ok pos, updateFd t fd (fun g => { g with offset := pos.toNat }))

/-- Modelled from the spec: `ceph_read` — `off = none` is the
current-position sentinel (uses and advances the handle offset), an explicit
offset does not move it; reading past end of file returns fewer bytes, never
an error. -/
def ceph_read_fd (t : FileTable) (fd : Int) (len : Nat) (off : Option Nat) :
    Except Int (List Char) × FileTable :=
  match lookupFd t fd with
  | none => (.error (-EBADF), t)
  | some h =>
    match off with
    | some o => (.ok (((t.data h.node).drop o).take len), t)
    | none =>
      let bs := ((t.data h.node).drop h.offset).take len
      (.ok bs, updateFd t fd (fun g => { g with offset := g.offset + bs.length }))

/-- Modelled from the spec: `ceph_write` with the same offset sentinel. -/
def ceph_write_fd (t : FileTable) (fd : Int) (bs : List Char) (off : Option Nat) :
    Except Int Nat × FileTable :=
  match lookupFd t fd with
  | none => (.error (-EBADF), t)
  | some h =>
    match off with
    | some o =>
      (.ok bs.length,
        { t with data := fun n => if n = h.node then writeAt (t.data n) o bs else t.data n })
    | none =>
      let t2 :=
        { t with data := fun n => if n = h.node then writeAt (t.data n) h.offset bs else t.data n }
      (.ok bs.length, updateFd t2 fd (fun g => { g with offset := g.offset + bs.length }))

/-- Modelled from the spec: `ceph_ftruncate`. -/
def ceph_ftruncate_fd (t : FileTable) (fd : Int) (size : Nat) :
    Except Int Int × FileTable :=
  match lookupFd t fd with
  | none => (.error (-EBADF), t)
  | some h =>
    (.ok 0, { t with data := fun n => if n = h.node then truncateTo (t.data n) size else t.data n })

/-- Modelled from the spec: `ceph_fsync` — flushes, no session-visible state
change. -/
def ceph_fsync_fd (t : FileTable) (fd : Int) (dataonly : Bool) :
    Except Int Int × FileTable :=
  match lookupFd t fd with
  | none => (.error (-EBADF), t)
  | some _ => (.ok 0, t)

/-- Modelled from the spec: `ceph_fstat` — a value-copied snapshot of the
node's metadata. -/
def ceph_fstat_fd (t : FileTable) (fd : Int) : Except Int CStat × FileTable :=
  match lookupFd t fd with
  | none => (.error (-EBADF), t)
  | some h =>
    (.ok { st_mode := t.modes h.node
           st_uid := (t.owners h.node).1
           st_gid := (t.owners h.node).2
           st_size := (t.data h.node).length
           st_blksize := 4194304
           st_blocks := ((t.data h.node).length + 511) / 512
           st_mtim := ⟨0, 0⟩
           st_atim := ⟨0, 0⟩ }, t)

/-- Modelled from the spec: `ceph_fchmod`. -/
def ceph_fchmod_fd (t : FileTable) (fd : Int) (mode : Nat) :
    Except Int Int × FileTable :=
  match lookupFd t fd with
  | none => (.error (-EBADF), t)
  | some h =>
    (.ok 0, { t with modes := fun n => if n = h.node then mode else t.modes n })

/-- Modelled from the spec: `ceph_fchown`. -/
def ceph_fchown_fd (t : FileTable) (fd : Int) (uid gid : Nat) :
    Except Int Int × FileTable :=
  match lookupFd t fd with
  | none => (.error (-EBADF), t)
  | some h =>
    (.ok 0, { t with owners := fun n => if n = h.node then (uid, gid) else t.owners n })

/-- Modelled from the spec: `ceph_get_file_stripe_unit`. -/
def ceph_get_file_stripe_unit_fd (t : FileTable) (fd : Int) :
    Except Int Nat × FileTable :=
  match lookupFd t fd with
  | none => (.error (-EBADF), t)
  | some h => (.ok h.stripe_unit, t)

/-- Modelled from the spec: `ceph_get_file_replication`. -/
def ceph_get_file_replication_fd (t : FileTable) (fd : Int) :
    Except Int Nat × FileTable :=
  match lookupFd t fd with
  | none => (.error (-EBADF), t)
  | some h => (.ok h.replication, t)

/-- Modelled from the spec: the descriptor side of `ceph_get_file_pool_name`
(layout introspection). -/
def ceph_get_file_pool_name_fd (t : FileTable) (fd : Int) :
    Except Int (List Char) × FileTable :=
  match lookupFd t fd with
  | none => (.error (-EBADF), t)
  | some h => (.ok h.pool, t)

/-- Modelled from the spec: `ceph_close` — releases the handle; the
descriptor becomes available for reuse. -/
def ceph_close_fd (t : FileTable) (fd : Int) : Except Int Int × FileTable :=
  match lookupFd t fd with
  | none => (.error (-EBADF), t)
  | some _ =>
    (.ok 0, { t with handles := t.handles.filter (fun h => (h.1 : Int) ≠ fd) })

/-! ### Auxiliary definitions used by the statements below -/

/-- Thin name for the link-following read variant: `ceph_getxattr` resolves
the path (following a terminal symlink) and applies the shared value-read
semantics to the resolved node's attribute value. -/
def ceph_getxattr_core (resolvedVal : Option (List Char)) (bufsize : Nat) : Int :=
  getxattr_sem resolvedVal bufsize

/-- Thin name for the non-following read variant: `ceph_lgetxattr` applies
the shared value-read semantics to the link node's own attribute value. -/
def ceph_lgetxattr_core (linkVal : Option (List Char)) (bufsize : Nat) : Int :=
  getxattr_sem linkVal bufsize

/-- Sequence of the first `n` entries `ceph_readdir` delivers from a cursor,
with the final cursor. -/
def readSeq : DirCursor → Nat → List (List Char) × DirCursor
  | c, 0 => ([], c)
  | c, n + 1 =>
    match ceph_readdir_core c with
    | (none, c2) => ([], c2)
    | (some e, c2) =>
      let p := readSeq c2 n
      (e :: p.1, p.2)

/-- Repeated bulk `ceph_getdnames` calls with a fixed buffer size,
concatenating the chunks, until the empty end-of-directory chunk; `none` on
fuel exhaustion or a bulk error. -/
def drainDnames (buflen : Nat) : DirCursor → Nat → Option (List (List Char))
  | _, 0 => none
  | c, fuel + 1 =>
    match ceph_getdnames_core c buflen with
    | (.ok [], _) => some []
    | (.ok chunk, c2) => (drainDnames buflen c2 fuel).map (fun l => chunk ++ l)
    | (.error _, _) => none

/-- The innermost directory of the self-referential loop fixture. -/
def loopD3 : FsTree :=
  .dir [("symdir".data, .symlink "/dir1_loopsym/loop_dir/symdir".data)]

/-- The middle directory of the self-referential loop fixture. -/
def loopD2 : FsTree := .dir [("loop_dir".data, loopD3)]

/-- The self-referential loop directory of MountedTest.LoopSyms
(test.cc:649): `/dir1_loopsym/loop_dir/symdir -> /dir1_loopsym/loop_dir/symdir`. -/
def loopRoot : FsTree := .dir [("dir1_loopsym".data, loopD2)]

/-- The three-cycle of MountedTest.LoopSyms (test.cc:671):
`/a -> /b`, `/b -> /c`, `/c -> /a`. -/
def cycleRoot : FsTree :=
  .dir [("a".data, .symlink "/b".data), ("b".data, .symlink "/c".data),
    ("c".data, .symlink "/a".data)]

/-! ## Theorems -/

/-- C10: the descriptor-based `fstat` path and the path-based `stat`/`lstat`
path disagree on the time encoding.  `fill_cephstat` stores
`sec * 1000 + nsec / 1000000` (milliseconds); the stores inlined in `fstat`
compute `sec * 1000 + nsec / 1000`, adding a microsecond count to a
millisecond value.  At `st_mtim = {sec = 0, nsec = 1000000}` (one
millisecond) the two paths produce 1 and 1000 respectively, so the records
differ — and the `fstat` path also leaves the `is_file` type predicate
untouched where `fill_cephstat` sets it. -/
theorem c10_fstat_time_encoding_divergence :
    (fill_cephstat { st_mode := 0x81A4, st_uid := 0, st_gid := 0, st_size := 0,
                     st_blksize := 0, st_blocks := 0,
                     st_mtim := ⟨0, 1000000⟩, st_atim := ⟨0, 1000000⟩ }).m_time = 1 ∧
    (fstat_fill
      { mode := 0, uid := 0, gid := 0, size := 0, blksize := 0, blocks := 0,
        m_time := 0, a_time := 0,
        is_file := false, is_directory := false, is_symlink := false }
      { st_mode := 0x81A4, st_uid := 0, st_gid := 0, st_size := 0,
        st_blksize := 0, st_blocks := 0,
        st_mtim := ⟨0, 1000000⟩, st_atim := ⟨0, 1000000⟩ }).m_time = 1000 ∧
    (fstat_fill
      { mode := 0, uid := 0, gid := 0, size := 0, blksize := 0, blocks := 0,
        m_time := 0, a_time := 0,
        is_file := false, is_directory := false, is_symlink := false }
      { st_mode := 0x81A4, st_uid := 0, st_gid := 0, st_size := 0,
        st_blksize := 0, st_blocks := 0,
        st_mtim := ⟨0, 1000000⟩, st_atim := ⟨0, 1000000⟩ }) ≠
    (fill_cephstat { st_mode := 0x81A4, st_uid := 0, st_gid := 0, st_size := 0,
                     st_blksize := 0, st_blocks := 0,
                     st_mtim := ⟨0, 1000000⟩, st_atim := ⟨0, 1000000⟩ }) := by
  refine ⟨by decide, by decide, by decide⟩

/-- C1 counterexample: `fsync` is an I/O-bearing operation of the claimed
list, yet invoked while not mounted (here with a collaborator reply of 0) it
reaches the `ceph_fsync` collaborator call (`touched = true`) and does not
fail with the not-mounted error. -/
theorem c1_fsync_skips_mount_check :
    (native_ceph_fsync 0 false 3 false).2 = true ∧
    (native_ceph_fsync 0 false 3 false).1 ≠ .error .notMounted :=
  ⟨rfl, fun h => nomatch h⟩

/-- C1 (amended): every listed I/O-bearing operation except `fsync`, invoked
with valid (non-null, non-negative-size) arguments while the session is not
mounted, fails with the dedicated not-mounted error and returns before any
collaborator call is reached (`touched = false`), hence with no side effect;
`fsync` alone performs no mount check (see the counterexample). -/
theorem c1_not_mounted_rejected_before_collaborator :
    (∀ rc stv p, native_ceph_statfs rc stv false (some p) (some ()) = (.error .notMounted, false)) ∧
    (∀ cwd, native_ceph_getcwd cwd false = (.error .notMounted, false)) ∧
    (∀ rc p, native_ceph_chdir rc false (some p) = (.error .notMounted, false)) ∧
    (∀ dres alloc fuel p, native_ceph_listdir false (some p) dres alloc fuel =
      (some (.error .notMounted, false), false)) ∧
    (∀ rc p q, native_ceph_link rc false (some p) (some q) = (.error .notMounted, false)) ∧
    (∀ rc p, native_ceph_unlink rc false (some p) = (.error .notMounted, false)) ∧
    (∀ rc p q, native_ceph_rename rc false (some p) (some q) = (.error .notMounted, false)) ∧
    (∀ rc p m, native_ceph_mkdir rc false (some p) m = (.error .notMounted, false)) ∧
    (∀ rc p m, native_ceph_mkdirs rc false (some p) m = (.error .notMounted, false)) ∧
    (∀ rc p, native_ceph_rmdir rc false (some p) = (.error .notMounted, false)) ∧
    (∀ sizes targets alloc fuel p, native_ceph_readlink sizes targets alloc fuel false (some p) =
      (some (.error .notMounted), false)) ∧
    (∀ rc p q, native_ceph_symlink rc false (some p) (some q) = (.error .notMounted, false)) ∧
    (∀ rc st p js, native_ceph_stat rc st false (some p) (some js) = (.error .notMounted, false)) ∧
    (∀ rc st p js, native_ceph_lstat rc st false (some p) (some js) = (.error .notMounted, false)) ∧
    (∀ rc p js m, native_ceph_setattr rc false (some p) (some js) m = (.error .notMounted, false)) ∧
    (∀ rc p m, native_ceph_chmod rc false (some p) m = (.error .notMounted, false)) ∧
    (∀ rc fd m, native_ceph_fchmod rc false fd m = (.error .notMounted, false)) ∧
    (∀ rc p sz, native_ceph_truncate rc false (some p) sz = (.error .notMounted, false)) ∧
    (∀ rc p fl m, native_ceph_open rc false (some p) fl m = (.error .notMounted, false)) ∧
    (∀ rc p fl m su sc os dp, native_ceph_open_layout rc false (some p) fl m su sc os dp =
      (.error .notMounted, false)) ∧
    (∀ rc fd, native_ceph_close rc false fd = (.error .notMounted, false)) ∧
    (∀ rc fd off w, native_ceph_lseek rc false fd off w = (.error .notMounted, false)) ∧
    (∀ rc fd b size off, 0 ≤ size →
      native_ceph_read rc false fd (some b) size off = (.error .notMounted, false)) ∧
    (∀ rc fd b size off, 0 ≤ size →
      native_ceph_write rc false fd (some b) size off = (.error .notMounted, false)) ∧
    (∀ rc fd sz, native_ceph_ftruncate rc false fd sz = (.error .notMounted, false)) ∧
    (∀ rc st fd js, native_ceph_fstat rc st false fd (some js) = (.error .notMounted, false)) ∧
    (∀ val p n buf, native_ceph_getxattr val false (some p) (some n) buf = (.error .notMounted, false)) ∧
    (∀ val p n buf, native_ceph_lgetxattr val false (some p) (some n) buf = (.error .notMounted, false)) ∧
    (∀ xs alloc fuel p, native_ceph_listxattr xs alloc fuel false (some p) =
      (some (.error .notMounted), false)) ∧
    (∀ xs alloc fuel p, native_ceph_llistxattr xs alloc fuel false (some p) =
      (some (.error .notMounted), false)) ∧
    (∀ rc p n b size fl, 0 ≤ size →
      native_ceph_setxattr rc false (some p) (some n) (some b) size fl = (.error .notMounted, false)) ∧
    (∀ rc p n b size fl, 0 ≤ size →
      native_ceph_lsetxattr rc false (some p) (some n) (some b) size fl = (.error .notMounted, false)) ∧
    (∀ rc p n, native_ceph_removexattr rc false (some p) (some n) = (.error .notMounted, false)) ∧
    (∀ rc p n, native_ceph_lremovexattr rc false (some p) (some n) = (.error .notMounted, false)) ∧
    (∀ rc fd, native_ceph_get_file_stripe_unit rc false fd = (.error .notMounted, false)) ∧
    (∀ rc fd, native_ceph_get_file_replication rc false fd = (.error .notMounted, false)) ∧
    (∀ needed pool alloc fuel fd, native_ceph_get_file_pool_name needed pool alloc fuel false fd =
      (some (.error .notMounted), false)) := by
  refine ⟨?_, ?_, ?_, ?_, ?_, ?_, ?_, ?_, ?_, ?_, ?_, ?_, ?_, ?_, ?_, ?_, ?_, ?_, ?_,
    ?_, ?_, ?_, ?_, ?_, ?_, ?_, ?_, ?_, ?_, ?_, ?_, ?_, ?_, ?_, ?_, ?_, ?_⟩ <;>
    intros <;>
    first
      | rfl
      | (simp only [native_ceph_read]; rw [if_neg (by omega)]; rfl)
      | (simp only [native_ceph_write]; rw [if_neg (by omega)]; rfl)
      | (simp only [native_ceph_setxattr]; rw [if_neg (by omega)]; rfl)
      | (simp only [native_ceph_lsetxattr]; rw [if_neg (by omega)]; rfl)

/-- C1 witness: the hypothesis-bearing conjuncts of the amended theorem at
concrete inputs. -/
theorem c1_not_mounted_witness :
    native_ceph_read 0 false 0 (some []) 0 0 = (.error .notMounted, false) ∧
    native_ceph_write 0 false 0 (some []) 0 0 = (.error .notMounted, false) ∧
    native_ceph_setxattr 0 false (some "p") (some "n") (some []) 0 1 = (.error .notMounted, false) ∧
    native_ceph_lsetxattr 0 false (some "p") (some "n") (some []) 0 1 = (.error .notMounted, false) := by
  obtain ⟨-, -, -, -, -, -, -, -, -, -, -, -, -, -, -, -, -, -, -, -, -, -,
    hread, hwrite, -, -, -, -, -, -, hsetx, hlsetx, -, -, -, -, -⟩ :=
    c1_not_mounted_rejected_before_collaborator
  exact ⟨hread 0 0 [] 0 0 (by norm_num), hwrite 0 0 [] 0 0 (by norm_num),
    hsetx 0 "p" "n" [] 0 1 (by norm_num), hlsetx 0 "p" "n" [] 0 1 (by norm_num)⟩

/-- C2: every per-descriptor operation of the handle table first validates
the descriptor; a negative descriptor is never open, an unknown or negative
one fails with the dedicated `-EBADF` error — distinct from the
filesystem-level error codes — and the failing check leaves the table (and
hence the session state) unchanged. -/
theorem c2_bad_descriptor_rejected_no_side_effect :
    (∀ t fd, fd < 0 → lookupFd t fd = none) ∧
    (∀ t fd off w, lookupFd t fd = none → ceph_lseek_fd t fd off w = (.error (-EBADF), t)) ∧
    (∀ t fd len off, lookupFd t fd = none → ceph_read_fd t fd len off = (.error (-EBADF), t)) ∧
    (∀ t fd bs off, lookupFd t fd = none → ceph_write_fd t fd bs off = (.error (-EBADF), t)) ∧
    (∀ t fd sz, lookupFd t fd = none → ceph_ftruncate_fd t fd sz = (.error (-EBADF), t)) ∧
    (∀ t fd dataonly, lookupFd t fd = none → ceph_fsync_fd t fd dataonly = (.error (-EBADF), t)) ∧
    (∀ t fd, lookupFd t fd = none → ceph_fstat_fd t fd = (.error (-EBADF), t)) ∧
    (∀ t fd m, lookupFd t fd = none → ceph_fchmod_fd t fd m = (.error (-EBADF), t)) ∧
    (∀ t fd u g, lookupFd t fd = none → ceph_fchown_fd t fd u g = (.error (-EBADF), t)) ∧
    (∀ t fd, lookupFd t fd = none → ceph_get_file_stripe_unit_fd t fd = (.error (-EBADF), t)) ∧
    (∀ t fd, lookupFd t fd = none → ceph_get_file_replication_fd t fd = (.error (-EBADF), t)) ∧
    (∀ t fd, lookupFd t fd = none → ceph_get_file_pool_name_fd t fd = (.error (-EBADF), t)) ∧
    (∀ t fd, lookupFd t fd = none → ceph_close_fd t fd = (.error (-EBADF), t)) ∧
    ((-EBADF ≠ -ENOENT ∧ -EBADF ≠ -EEXIST ∧ -EBADF ≠ -ENOTDIR) ∧
      (-EBADF ≠ -ERANGE ∧ (-EBADF : Int) ≠ -ELOOP)) := by
  refine ⟨fun t fd h => by simp [lookupFd, h], ?_, ?_, ?_, ?_, ?_, ?_, ?_, ?_, ?_, ?_, ?_, ?_,
    by exact ⟨⟨by decide, by decide, by decide⟩, by decide, by decide⟩⟩ <;>
    · intros t fd
      intros
      first
        | (rename_i h; simp only [ceph_lseek_fd, h])
        | (rename_i h; simp only [ceph_read_fd, h])
        | (rename_i h; simp only [ceph_write_fd, h])
        | (rename_i h; simp only [ceph_ftruncate_fd, h])
        | (rename_i h; simp only [ceph_fsync_fd, h])
        | (rename_i h; simp only [ceph_fstat_fd, h])
        | (rename_i h; simp only [ceph_fchmod_fd, h])
        | (rename_i h; simp only [ceph_fchown_fd, h])
        | (rename_i h; simp only [ceph_get_file_stripe_unit_fd, h])
        | (rename_i h; simp only [ceph_get_file_replication_fd, h])
        | (rename_i h; simp only [ceph_get_file_pool_name_fd, h])
        | (rename_i h; simp only [ceph_close_fd, h])

/-- C2 witness: descriptor −1 against a concrete empty table. -/
theorem c2_bad_descriptor_witness :
    lookupFd ⟨[], fun _ => [], fun _ => 0, fun _ => (0, 0)⟩ (-1) = none ∧
    ceph_lseek_fd ⟨[], fun _ => [], fun _ => 0, fun _ => (0, 0)⟩ (-1) 0 1 =
      (.error (-EBADF), ⟨[], fun _ => [], fun _ => 0, fun _ => (0, 0)⟩) := by
  have h := c2_bad_descriptor_rejected_no_side_effect
  exact ⟨h.1 _ _ (by norm_num), h.2.1 _ _ 0 1 (h.1 _ _ (by norm_num))⟩

/-- C8: reading an attribute value into an undersized non-empty buffer fails
with the range error, while a zero-length buffer is a valid size query that
returns the (non-negative) required size and never fails for being empty —
for both the link-following variant (`ceph_getxattr`, acting on the resolved
node's value) and the non-following one (`ceph_lgetxattr`, acting on the link
node's own value). -/
theorem c8_xattr_undersized_range_zero_size_query :
    (∀ v bufsize, 0 < bufsize → bufsize < v.length →
      ceph_getxattr_core (some v) bufsize = -ERANGE ∧
      ceph_lgetxattr_core (some v) bufsize = -ERANGE) ∧
    (∀ v, ceph_getxattr_core (some v) 0 = (v.length : Int) ∧
      ceph_lgetxattr_core (some v) 0 = (v.length : Int) ∧
      0 ≤ ceph_getxattr_core (some v) 0 ∧ 0 ≤ ceph_lgetxattr_core (some v) 0) := by
  constructor
  · intro v bufsize h1 h2
    constructor <;>
      simp [ceph_getxattr_core, ceph_lgetxattr_core, getxattr_sem, Nat.pos_iff_ne_zero.mp h1, h2]
  · intro v
    refine ⟨by simp [ceph_getxattr_core, getxattr_sem],
      by simp [ceph_lgetxattr_core, getxattr_sem], ?_, ?_⟩ <;>
      simp [ceph_getxattr_core, ceph_lgetxattr_core, getxattr_sem]

/-- C8 witness: a two-byte value against a one-byte buffer and a zero-length
probe. -/
theorem c8_xattr_witness :
    ceph_getxattr_core (some ['x', 'y']) 1 = -ERANGE ∧
    ceph_lgetxattr_core (some ['x', 'y']) 1 = -ERANGE ∧
    ceph_getxattr_core (some ['x', 'y']) 0 = 2 := by
  have h := c8_xattr_undersized_range_zero_size_query
  exact ⟨(h.1 ['x', 'y'] 1 (by norm_num) (by norm_num)).1,
    (h.1 ['x', 'y'] 1 (by norm_num) (by norm_num)).2,
    (h.2 ['x', 'y']).1⟩

/-- The first `n` entries a cursor delivers are the `n`-entry prefix of the
full enumeration starting at the cursor position. -/
theorem readSeq_take (n : Nat) : ∀ c : DirCursor,
    (readSeq c n).1 = ((cursorEntries c.dir).drop c.pos).take n := by
  induction n with
  | zero => intro c; rfl
  | succ n ih =>
    intro c
    cases hdrop : (cursorEntries c.dir).drop c.pos with
    | nil =>
      simp only [readSeq, ceph_readdir_core, hdrop, List.take_nil]
    | cons e rest =>
      have h2 : (cursorEntries c.dir).drop (c.pos + 1) = rest := by
        have := List.drop_drop 1 c.pos (cursorEntries c.dir)
        rw [← this, hdrop, List.drop_one]
        rfl
      simp only [readSeq, ceph_readdir_core, hdrop, List.take_succ_cons]
      rw [ih ⟨c.dir, c.pos + 1⟩]
      simp [h2]

/-- C3: immediately after `opendir` and immediately after every rewind, the
first two delivered entries are `"."` then `".."`, in that order; the
sequence of deliveries is the prefix of the fixed enumeration
`"." :: ".." :: names`, and within one open/rewind cycle `"."` and `".."`
are delivered exactly once each (for any directory whose own contents do not
include them). -/
theorem c3_dot_dotdot_first_exactly_once :
    (∀ d, (ceph_readdir_core (ceph_opendir_core d)).1 = some dotName) ∧
    (∀ d, (ceph_readdir_core (ceph_readdir_core (ceph_opendir_core d)).2).1 = some dotdotName) ∧
    (∀ c, (ceph_readdir_core (ceph_rewinddir_core c)).1 = some dotName) ∧
    (∀ c, (ceph_readdir_core (ceph_readdir_core (ceph_rewinddir_core c)).2).1 = some dotdotName) ∧
    (∀ d n, (readSeq (ceph_opendir_core d) n).1 = (cursorEntries d).take n) ∧
    (∀ c n, (readSeq (ceph_rewinddir_core c) n).1 = (cursorEntries c.dir).take n) ∧
    (∀ d n, 2 ≤ n → dotName ∉ d.names → dotdotName ∉ d.names →
      (readSeq (ceph_opendir_core d) n).1.count dotName = 1 ∧
      (readSeq (ceph_opendir_core d) n).1.count dotdotName = 1) := by
  refine ⟨fun d => rfl, fun d => rfl, fun c => rfl, fun c => rfl,
    fun d n => by simpa using readSeq_take n (ceph_opendir_core d),
    fun c n => by simpa using readSeq_take n (ceph_rewinddir_core c), ?_⟩
  intro d n h2 h3 h4
  rw [readSeq_take n (ceph_opendir_core d)]
  obtain ⟨m, rfl⟩ : ∃ m, n = m + 2 := ⟨n - 2, by omega⟩
  have hdot : (d.names.take m).count dotName = 0 :=
    List.count_eq_zero.mpr (fun hm => h3 (List.take_subset m d.names hm))
  have hdd : (d.names.take m).count dotdotName = 0 :=
    List.count_eq_zero.mpr (fun hm => h4 (List.take_subset m d.names hm))
  simp only [ceph_opendir_core, cursorEntries, List.drop_zero, List.take_succ_cons]
  constructor <;> simp [List.count_cons, hdot, hdd] <;> decide

/-- C3 witness: a one-file directory read for three entries. -/
theorem c3_witness :
    (readSeq (ceph_opendir_core ⟨[['f']]⟩) 3).1.count dotName = 1 ∧
    (readSeq (ceph_opendir_core ⟨[['f']]⟩) 3).1.count dotdotName = 1 := by
  have h := c3_dot_dotdot_first_exactly_once
  exact h.2.2.2.2.2.2 ⟨[['f']]⟩ 3 (by norm_num) (by decide) (by decide)

/-- Every expansion of an absolute self-returning symlink family consumes one
unit of the resolution-depth budget, so the walk ends in `-ELOOP`. -/
theorem resolveWalk_abs_cycle (cs : List (List Char × FsTree)) (f : Nat → List Char)
    (hchild : ∀ i, childLookup cs (f i) = some (.symlink ('/' :: f (i + 1))))
    (hsplit : ∀ i, splitPath ('/' :: f i) = [f i]) :
    ∀ depth i, resolveWalk (.dir cs) depth (.dir cs) [f i] = .error (-ELOOP) := by
  intro depth
  induction depth with
  | zero =>
    intro i
    rw [resolveWalk.eq_def]
    simp only [hchild i]
  | succ d ih =>
    intro i
    rw [resolveWalk.eq_def]
    simp only [hchild i, isAbsolute, if_true]
    rw [hsplit (i + 1)]
    simpa using ih (i + 1)

/-- The concrete three-cycle of MountedTest.LoopSyms ends in `-ELOOP` from
any of its three entry names, for every depth budget. -/
theorem resolveWalk_cycle3 :
    ∀ d, resolveWalk cycleRoot d cycleRoot ["a".data] = .error (-ELOOP) ∧
         resolveWalk cycleRoot d cycleRoot ["b".data] = .error (-ELOOP) ∧
         resolveWalk cycleRoot d cycleRoot ["c".data] = .error (-ELOOP) := by
  intro d
  induction d with
  | zero => refine ⟨?_, ?_, ?_⟩ <;> (rw [resolveWalk.eq_def]; rfl)
  | succ d ih =>
    refine ⟨?_, ?_, ?_⟩
    · rw [resolveWalk.eq_def]
      change resolveWalk cycleRoot d cycleRoot (splitPath "/b".data ++ []) = _
      have h : splitPath "/b".data ++ ([] : List (List Char)) = ["b".data] := by decide
      rw [h]; exact ih.2.1
    · rw [resolveWalk.eq_def]
      change resolveWalk cycleRoot d cycleRoot (splitPath "/c".data ++ []) = _
      have h : splitPath "/c".data ++ ([] : List (List Char)) = ["c".data] := by decide
      rw [h]; exact ih.2.2
    · rw [resolveWalk.eq_def]
      change resolveWalk cycleRoot d cycleRoot (splitPath "/a".data ++ []) = _
      have h : splitPath "/a".data ++ ([] : List (List Char)) = ["a".data] := by decide
      rw [h]; exact ih.1

/-- The concrete self-referential mid-path loop of MountedTest.LoopSyms ends
in `-ELOOP` for every depth budget. -/
theorem resolveWalk_loopRoot_self :
    ∀ d, resolveWalk loopRoot d loopRoot
      ["dir1_loopsym".data, "loop_dir".data, "symdir".data, "test_loopsym_file".data] =
      .error (-ELOOP) := by
  intro d
  induction d with
  | zero =>
    rw [resolveWalk.eq_def]
    change resolveWalk loopRoot 0 loopD2 ["loop_dir".data, "symdir".data, "test_loopsym_file".data] = _
    rw [resolveWalk.eq_def]
    change resolveWalk loopRoot 0 loopD3 ["symdir".data, "test_loopsym_file".data] = _
    rw [resolveWalk.eq_def]
    rfl
  | succ d ih =>
    rw [resolveWalk.eq_def]
    change resolveWalk loopRoot (d + 1) loopD2 ["loop_dir".data, "symdir".data, "test_loopsym_file".data] = _
    rw [resolveWalk.eq_def]
    change resolveWalk loopRoot (d + 1) loopD3 ["symdir".data, "test_loopsym_file".data] = _
    rw [resolveWalk.eq_def]
    change resolveWalk loopRoot d loopRoot
      (splitPath "/dir1_loopsym/loop_dir/symdir".data ++ ["test_loopsym_file".data]) = _
    have h : splitPath "/dir1_loopsym/loop_dir/symdir".data ++ ["test_loopsym_file".data] =
        ["dir1_loopsym".data, "loop_dir".data, "symdir".data, "test_loopsym_file".data] := by decide
    rw [h]; exact ih

/-- C5: path resolution charges every symlink expansion against the bounded
depth counter, so it is a total function, and opening a path through a
symlink cycle fails with the symlink-loop error: generically for any family
of absolute symlinks each pointing at the next (covering the self-loop
`a -> a` as the constant family), and concretely for the mid-path
self-referential loop and the 3-cycle `a -> b -> c -> a` of
MountedTest.LoopSyms. -/
theorem c5_symlink_loop_detection :
    (∀ (cs : List (List Char × FsTree)) (f : Nat → List Char),
      (∀ i, childLookup cs (f i) = some (.symlink ('/' :: f (i + 1)))) →
      (∀ i, splitPath ('/' :: f i) = [f i]) →
      ∀ i, ceph_open_resolve (.dir cs) ('/' :: f i) = .error (-ELOOP)) ∧
    ceph_open_resolve loopRoot "/dir1_loopsym/loop_dir/symdir/test_loopsym_file".data = .error (-ELOOP) ∧
    ceph_open_resolve cycleRoot "/a".data = .error (-ELOOP) ∧
    ceph_open_resolve cycleRoot "/b".data = .error (-ELOOP) ∧
    ceph_open_resolve cycleRoot "/c".data = .error (-ELOOP) := by
  refine ⟨?_, ?_, ?_, ?_, ?_⟩
  · intro cs f hchild hsplit i
    simp only [ceph_open_resolve]
    rw [hsplit i, resolveWalk_abs_cycle cs f hchild hsplit SYMLOOP_MAX i]
  · simp only [ceph_open_resolve]
    have h : splitPath "/dir1_loopsym/loop_dir/symdir/test_loopsym_file".data =
        ["dir1_loopsym".data, "loop_dir".data, "symdir".data, "test_loopsym_file".data] := by decide
    rw [h, resolveWalk_loopRoot_self SYMLOOP_MAX]
  · simp only [ceph_open_resolve]
    have h : splitPath "/a".data = ["a".data] := by decide
    rw [h, (resolveWalk_cycle3 SYMLOOP_MAX).1]
  · simp only [ceph_open_resolve]
    have h : splitPath "/b".data = ["b".data] := by decide
    rw [h, (resolveWalk_cycle3 SYMLOOP_MAX).2.1]
  · simp only [ceph_open_resolve]
    have h : splitPath "/c".data = ["c".data] := by decide
    rw [h, (resolveWalk_cycle3 SYMLOOP_MAX).2.2]

/-- C5 witness: the generic cycle conjunct applied to the one-entry self-loop
`a -> /a`. -/
theorem c5_symlink_loop_witness :
    ceph_open_resolve (.dir [("a".data, FsTree.symlink "/a".data)]) ('/' :: "a".data) =
      .error (-ELOOP) :=
  c5_symlink_loop_detection.1 [("a".data, .symlink "/a".data)] (fun _ => "a".data)
    (fun _ => rfl) (fun _ => show splitPath "/a".data = ["a".data] by decide) 0

/-- If the link target grows between each lstat and read for the first `j`
iterations and fits at iteration `j`, the retry loop returns the complete
target text of iteration `j`. -/
theorem readlink_loop_first_fit (sizes : Nat → Nat) (targets : Nat → List Char)
    (alloc : Nat → Bool) (halloc : ∀ i, alloc i = true) (j : Nat)
    (hgrow : ∀ i, i < j → sizes i < (targets i).length)
    (hfit : (targets j).length ≤ sizes j) :
    ∀ fuel i, i ≤ j → j < i + fuel →
      readlink_loop sizes targets alloc fuel i = some (.ok (targets j)) := by
  intro fuel
  induction fuel with
  | zero => intro i h1 h2; omega
  | succ fuel ih =>
    intro i h1 h2
    by_cases hij : i = j
    · subst hij
      simp only [readlink_loop, halloc i, if_true, ceph_readlink_core]
      have hm : min (targets i).length (sizes i + 1) = (targets i).length :=
        Nat.min_eq_left (by omega)
      rw [hm, if_neg (by omega), List.take_length]
    · simp only [readlink_loop, halloc i, if_true, ceph_readlink_core]
      have hs : sizes i < (targets i).length := hgrow i (by omega)
      have hm : min (targets i).length (sizes i + 1) = sizes i + 1 :=
        Nat.min_eq_right (by omega)
      rw [hm, if_pos (by omega)]
      exact ih (i + 1) (by omega) (by omega)

/-- C7: `readlink` sizes its buffer from the preceding lstat's recorded
size; whenever the read returns more bytes than that recorded size (the
target grew between the two non-atomic steps) it discards the buffer,
re-stats and retries, and on the first iteration whose read fits it returns
the complete link target text. -/
theorem c7_readlink_restat_retry :
    ∀ sizes targets alloc fuel (p : String) (j : Nat),
      (∀ i, alloc i = true) →
      (∀ i, i < j → sizes i < (targets i).length) →
      (targets j).length ≤ sizes j →
      j < fuel →
      native_ceph_readlink sizes targets alloc fuel true (some p) =
        (some (.ok (targets j)), true) := by
  intro sizes targets alloc fuel p j h1 h2 h3 h4
  simp only [native_ceph_readlink, Bool.not_true, Bool.false_eq_true, if_false]
  rw [readlink_loop_first_fit sizes targets alloc h1 j h2 h3 fuel 0 (by omega) (by omega)]

/-- C7 witness: a link that grows from 1 to 5 bytes between the first lstat
and read, then is read completely on the second iteration. -/
theorem c7_readlink_witness :
    native_ceph_readlink (fun i => if i = 0 then 1 else 5) (fun _ => "abcde".data)
      (fun _ => true) 2 true (some "lnk") = (some (.ok "abcde".data), true) :=
  c7_readlink_restat_retry (fun i => if i = 0 then 1 else 5) (fun _ => "abcde".data) (fun _ => true) 2 "lnk" 1
    (fun _ => rfl)
    (fun i hi => by
      have h0 : i = 0 := by omega
      rw [h0]
      decide)
    (by decide) (by omega)

/-- Parsing one NUL-terminated name off the front of a packed buffer. -/
theorem parseNames_append_cons (s : List Char) :
    ∀ P : List Char, NUL ∉ s → parseNames (s ++ NUL :: P) = s :: parseNames P := by
  induction s with
  | nil => intro P h; rfl
  | cons c cs ih =>
    intro P h
    have hc : ¬(c = NUL) := fun hh => h (by simp [hh])
    have hcs : NUL ∉ cs := fun hh => h (by simp [hh])
    simp only [List.cons_append, parseNames, if_neg hc, List.append_eq]
    rw [ih P hcs]

/-- The entry-by-entry parse of a packed name buffer recovers exactly the
packed names, provided no name contains an interior NUL. -/
theorem parseNames_packNames : ∀ l : List (List Char), (∀ s ∈ l, NUL ∉ s) →
    parseNames (packNames l) = l := by
  intro l
  induction l with
  | nil => intro h; rfl
  | cons s rest ih =>
    intro h
    have hs : NUL ∉ s := h s (by simp)
    have hrest : ∀ x ∈ rest, NUL ∉ x := fun x hx => h x (by simp [hx])
    show parseNames (s ++ NUL :: packNames rest) = s :: rest
    rw [parseNames_append_cons s (packNames rest) hs, ih hrest]

/-- `takeFit` takes a prefix: the chunk followed by the corresponding drop
is the original list. -/
theorem takeFit_append : ∀ (l : List (List Char)) (room : Nat),
    takeFit l room ++ l.drop (takeFit l room).length = l := by
  intro l
  induction l with
  | nil => intro room; rfl
  | cons s rest ih =>
    intro room
    by_cases hfit : packedLen s ≤ room
    · simp only [takeFit, if_pos hfit, List.length_cons, List.cons_append]
      rw [List.drop_succ_cons]
      rw [ih (room - packedLen s)]
    · simp only [takeFit, if_neg hfit, List.length_nil, List.drop_zero, List.nil_append]

/-- Every name in a fitted chunk is a name of the original list. -/
theorem takeFit_subset : ∀ (l : List (List Char)) (room : Nat) (x : List Char),
    x ∈ takeFit l room → x ∈ l := by
  intro l room x hx
  rw [← takeFit_append l room]
  exact List.mem_append_left _ hx

/-- Size of a packed buffer: the sum of the packed lengths of its names. -/
theorem packNames_length : ∀ l : List (List Char),
    (packNames l).length = (l.map packedLen).sum := by
  intro l
  induction l with
  | nil => rfl
  | cons s rest ih =>
    show (s ++ NUL :: packNames rest).length = _
    simp [ih, packedLen]
    omega

/-- A bulk read into a buffer too small for even the first remaining entry
fails with `-ERANGE` and consumes nothing. -/
theorem getdnames_too_small (c : DirCursor) (buflen : Nat) (e : List Char)
    (rest : List (List Char))
    (hdrop : (cursorEntries c.dir).drop c.pos = e :: rest)
    (hsmall : buflen < packedLen e) :
    ceph_getdnames_core c buflen = (.error (-ERANGE), c) := by
  simp only [ceph_getdnames_core, hdrop, takeFit,
    if_neg (by omega : ¬ packedLen e ≤ buflen)]

/-- A bulk read whose buffer holds the first remaining entry returns the
maximal fitting chunk of whole entries, starting with that entry, and
advances the cursor past exactly those entries. -/
theorem getdnames_first_fit (c : DirCursor) (buflen : Nat) (e : List Char)
    (rest : List (List Char))
    (hdrop : (cursorEntries c.dir).drop c.pos = e :: rest)
    (hfit : packedLen e ≤ buflen) :
    ceph_getdnames_core c buflen =
      (.ok (e :: takeFit rest (buflen - packedLen e)),
       ⟨c.dir, c.pos + (e :: takeFit rest (buflen - packedLen e)).length⟩) := by
  simp only [ceph_getdnames_core, hdrop, takeFit, if_pos hfit]

/-- Repeated bulk reads with a buffer large enough for every entry return the
full enumeration. -/
theorem drainDnames_complete (buflen : Nat) :
    ∀ fuel (c : DirCursor),
      (∀ s ∈ cursorEntries c.dir, packedLen s ≤ buflen) →
      ((cursorEntries c.dir).drop c.pos).length < fuel →
      drainDnames buflen c fuel = some ((cursorEntries c.dir).drop c.pos) := by
  intro fuel
  induction fuel with
  | zero => intro c h1 h2; omega
  | succ fuel ih =>
    intro c h1 h2
    cases hdrop : (cursorEntries c.dir).drop c.pos with
    | nil => simp only [drainDnames, ceph_getdnames_core, hdrop]
    | cons e rest =>
      have hfit : packedLen e ≤ buflen :=
        h1 e (List.drop_subset c.pos _ (hdrop ▸ List.mem_cons_self e rest))
      simp only [drainDnames, getdnames_first_fit c buflen e rest hdrop hfit]
      have hd2 : (cursorEntries c.dir).drop
          (c.pos + (e :: takeFit rest (buflen - packedLen e)).length) =
          rest.drop (takeFit rest (buflen - packedLen e)).length := by
        rw [← List.drop_drop]
        rw [hdrop]
        simp [List.drop_succ_cons]
      have hlen : (rest.drop (takeFit rest (buflen - packedLen e)).length).length < fuel := by
        have := List.length_drop (takeFit rest (buflen - packedLen e)).length rest
        rw [hdrop] at h2
        simp at h2
        omega
      have hih2 : drainDnames buflen
          ⟨c.dir, c.pos + (e :: takeFit rest (buflen - packedLen e)).length⟩ fuel =
          some (rest.drop (takeFit rest (buflen - packedLen e)).length) := by
        rw [← hd2]
        exact ih _ h1 (by
          show ((cursorEntries c.dir).drop
            (c.pos + (e :: takeFit rest (buflen - packedLen e)).length)).length < fuel
          rw [hd2]; exact hlen)
      rw [hih2]
      simp [takeFit_append rest (buflen - packedLen e)]

/-- C4: a bulk getdents-style read into a buffer too small for even one
entry fails with the range error and consumes no entry — a subsequent call
with a large-enough buffer returns the same first entry — and otherwise it
packs only whole entries, and the concatenation of entries from repeated
bulk calls equals the single unbounded enumeration of the directory. -/
theorem c4_getdents_bulk_resumable :
    (∀ (c : DirCursor) (buflen : Nat) (e : List Char) (rest : List (List Char)),
      (cursorEntries c.dir).drop c.pos = e :: rest →
      buflen < packedLen e →
      ceph_getdnames_core c buflen = (.error (-ERANGE), c)) ∧
    (∀ (c : DirCursor) (buflen2 : Nat) (e : List Char) (rest : List (List Char)),
      (cursorEntries c.dir).drop c.pos = e :: rest →
      packedLen e ≤ buflen2 →
      (ceph_getdnames_core c buflen2).1 =
        .ok (e :: takeFit rest (buflen2 - packedLen e))) ∧
    (∀ (d : DirState) (buflen fuel : Nat),
      (∀ s ∈ cursorEntries d, packedLen s ≤ buflen) →
      (cursorEntries d).length < fuel →
      drainDnames buflen (ceph_opendir_core d) fuel = some (cursorEntries d)) := by
  refine ⟨getdnames_too_small, ?_, ?_⟩
  · intro c b e rest hdrop hfit
    rw [getdnames_first_fit c b e rest hdrop hfit]
  · intro d buflen fuel h1 h2
    have h := drainDnames_complete buflen fuel (ceph_opendir_core d) (by simpa using h1)
      (by simpa using h2)
    simpa using h

/-- C4 witness: a one-file directory, a too-small read, a fitting retry, and
a full drain. -/
theorem c4_getdents_witness :
    ceph_getdnames_core ⟨⟨[['f', 'o', 'o']]⟩, 2⟩ 3 = (.error (-ERANGE), ⟨⟨[['f', 'o', 'o']]⟩, 2⟩) ∧
    (ceph_getdnames_core ⟨⟨[['f', 'o', 'o']]⟩, 2⟩ 6).1 = .ok [['f', 'o', 'o']] ∧
    drainDnames 6 (ceph_opendir_core ⟨[['f', 'o', 'o']]⟩) 4 =
      some [dotName, dotdotName, ['f', 'o', 'o']] := by
  have h := c4_getdents_bulk_resumable
  exact ⟨h.1 _ 3 ['f', 'o', 'o'] [] (by decide) (by decide),
    h.2.1 _ 6 ['f', 'o', 'o'] [] (by decide) (by decide),
    h.2.2 ⟨[['f', 'o', 'o']]⟩ 6 4 (by decide) (by decide)⟩

/-- The conf_get doubling loop succeeds with a final buffer that holds the
value once the doubled size reaches the required one. -/
theorem conf_get_loop_success (v : List Char) (alloc : Nat → Bool)
    (halloc : ∀ i, alloc i = true) :
    ∀ fuel buflen attempt, v.length + 1 ≤ buflen * 2 ^ fuel →
      ∃ b, conf_get_loop (some v) alloc (fuel + 1) buflen attempt =
        some (.ok (some v, b)) ∧ v.length + 1 ≤ b := by
  intro fuel
  induction fuel with
  | zero =>
    intro buflen attempt h
    simp only [pow_zero, mul_one] at h
    refine ⟨buflen, ?_, h⟩
    simp only [conf_get_loop, ceph_conf_get_core, if_neg (show ¬ buflen < v.length + 1 by omega)]
    norm_num [ENAMETOOLONG]
  | succ fuel ih =>
    intro buflen attempt h
    by_cases hb : buflen < v.length + 1
    · have h2 : v.length + 1 ≤ buflen * 2 * 2 ^ fuel := by
        rw [pow_succ] at h
        calc v.length + 1 ≤ buflen * (2 ^ fuel * 2) := h
          _ = buflen * 2 * 2 ^ fuel := by ring
      obtain ⟨b, hb2, hb3⟩ := ih (buflen * 2) (attempt + 1) h2
      refine ⟨b, ?_, hb3⟩
      simp only [conf_get_loop, ceph_conf_get_core, if_pos hb, halloc attempt, if_pos rfl,
        if_true]
      exact hb2
    · refine ⟨buflen, ?_, by omega⟩
      simp only [conf_get_loop, ceph_conf_get_core, if_neg hb]
      norm_num [ENAMETOOLONG]

/-- The conf_get doubling loop reports OutOfMemory when the allocation of
the first sufficient retry fails. -/
theorem conf_get_loop_oom (v : List Char) (alloc : Nat → Bool) :
    ∀ gap fuel buflen attempt,
      (∀ i, attempt ≤ i → i < attempt + gap → alloc i = true) →
      alloc (attempt + gap) = false →
      (∀ s, s ≤ gap → buflen * 2 ^ s < v.length + 1) →
      gap < fuel →
      conf_get_loop (some v) alloc fuel buflen attempt = some (.error .outOfMemory) := by
  intro gap
  induction gap with
  | zero =>
    intro fuel buflen attempt h1 h2 h3 h4
    obtain ⟨f, rfl⟩ : ∃ f, fuel = f + 1 := ⟨fuel - 1, by omega⟩
    have hb : buflen < v.length + 1 := by simpa using h3 0 (le_refl 0)
    have h2a : alloc attempt = false := by simpa using h2
    simp [conf_get_loop, ceph_conf_get_core, if_pos hb, h2a]
  | succ gap ih =>
    intro fuel buflen attempt h1 h2 h3 h4
    obtain ⟨f, rfl⟩ : ∃ f, fuel = f + 1 := ⟨fuel - 1, by omega⟩
    have hb : buflen < v.length + 1 := by simpa using h3 0 (by omega)
    have ha : alloc attempt = true := h1 attempt (le_refl _) (by omega)
    simp only [conf_get_loop, ceph_conf_get_core, if_pos hb, if_pos rfl, ha, if_true]
    refine ih f (buflen * 2) (attempt + 1) ?_ ?_ ?_ (by omega)
    · intro i hi1 hi2
      exact h1 i (by omega) (by omega)
    · have : attempt + 1 + gap = attempt + (gap + 1) := by omega
      rw [this]
      exact h2
    · intro s hs
      have := h3 (s + 1) (by omega)
      calc buflen * 2 * 2 ^ s = buflen * 2 ^ (s + 1) := by rw [pow_succ]; ring
        _ < v.length + 1 := this

/-- The listxattr doubling loop returns the parsed attribute names once the
doubled size holds the packed list. -/
theorem listxattr_loop_success (xs : List (List Char)) (alloc : Nat → Bool)
    (halloc : ∀ i, alloc i = true) (hnul : ∀ s ∈ xs, NUL ∉ s) :
    ∀ fuel buflen attempt, (packNames xs).length ≤ buflen * 2 ^ fuel →
      listxattr_loop xs alloc (fuel + 1) buflen attempt = some (.ok xs) := by
  intro fuel
  induction fuel with
  | zero =>
    intro buflen attempt h
    simp only [pow_zero, mul_one] at h
    simp only [listxattr_loop, ceph_listxattr_core, if_pos h]
    rw [parseNames_packNames xs hnul]
  | succ fuel ih =>
    intro buflen attempt h
    by_cases hb : (packNames xs).length ≤ buflen
    · simp only [listxattr_loop, ceph_listxattr_core, if_pos hb]
      rw [parseNames_packNames xs hnul]
    · have h2 : (packNames xs).length ≤ buflen * 2 * 2 ^ fuel := by
        rw [pow_succ] at h
        calc (packNames xs).length ≤ buflen * (2 ^ fuel * 2) := h
          _ = buflen * 2 * 2 ^ fuel := by ring
      simp only [listxattr_loop, ceph_listxattr_core, if_neg hb, halloc attempt, if_true]
      exact ih (buflen * 2) (attempt + 1) h2

/-- The listxattr doubling loop reports OutOfMemory when a retry allocation
fails. -/
theorem listxattr_loop_oom (xs : List (List Char)) (alloc : Nat → Bool) :
    ∀ gap fuel buflen attempt,
      (∀ i, attempt ≤ i → i < attempt + gap → alloc i = true) →
      alloc (attempt + gap) = false →
      (∀ s, s ≤ gap → buflen * 2 ^ s < (packNames xs).length) →
      gap < fuel →
      listxattr_loop xs alloc fuel buflen attempt = some (.error .outOfMemory) := by
  intro gap
  induction gap with
  | zero =>
    intro fuel buflen attempt h1 h2 h3 h4
    obtain ⟨f, rfl⟩ : ∃ f, fuel = f + 1 := ⟨fuel - 1, by omega⟩
    have hb : ¬ (packNames xs).length ≤ buflen := by
      have := h3 0 (le_refl 0); simp at this; omega
    have h2a : alloc attempt = false := by simpa using h2
    simp [listxattr_loop, ceph_listxattr_core, if_neg hb, h2a]
  | succ gap ih =>
    intro fuel buflen attempt h1 h2 h3 h4
    obtain ⟨f, rfl⟩ : ∃ f, fuel = f + 1 := ⟨fuel - 1, by omega⟩
    have hb : ¬ (packNames xs).length ≤ buflen := by
      have := h3 0 (by omega); simp at this; omega
    have ha : alloc attempt = true := h1 attempt (le_refl _) (by omega)
    simp only [listxattr_loop, ceph_listxattr_core, if_neg hb, ha, if_true]
    refine ih f (buflen * 2) (attempt + 1) ?_ ?_ ?_ (by omega)
    · intro i hi1 hi2
      exact h1 i (by omega) (by omega)
    · have heq : attempt + 1 + gap = attempt + (gap + 1) := by omega
      rw [heq]
      exact h2
    · intro s hs
      have := h3 (s + 1) (by omega)
      calc buflen * 2 * 2 ^ s = buflen * 2 ^ (s + 1) := by rw [pow_succ]; ring
        _ < (packNames xs).length := this

/-- The pool-name probe loop succeeds from the 128-byte guess: directly if
it suffices, otherwise via the `-ERANGE` signal, the zero-length size probe
and one reallocation to the exact reported size. -/
theorem pool_name_loop_success (needed : Nat) (pool : List Char) (alloc : Nat → Bool)
    (halloc : ∀ i, alloc i = true) :
    ∀ fuel, 4 ≤ fuel → pool_name_loop needed pool alloc fuel 128 1 = some (.ok pool) := by
  intro fuel hf
  obtain ⟨f, rfl⟩ : ∃ f, fuel = f + 4 := ⟨fuel - 4, by omega⟩
  have hne : ¬ ((needed : Int) = -ERANGE) := by simp [ERANGE]
  have hneg : ¬ ((needed : Int) < 0) := by omega
  by_cases hn : needed ≤ 128
  · have hrc : ceph_get_file_pool_name_core needed 128 = (needed : Int) := by
      unfold ceph_get_file_pool_name_core
      rw [if_neg (by omega : ¬ (128 : Nat) = 0), if_neg (by omega : ¬ (128 : Nat) < needed)]
    show pool_name_loop needed pool alloc (f + 3 + 1) 128 1 = some (.ok pool)
    rw [pool_name_loop.eq_2, hrc, if_neg hne, if_neg hneg]
    norm_num
  · have hrc : ceph_get_file_pool_name_core needed 128 = -ERANGE := by
      unfold ceph_get_file_pool_name_core
      rw [if_neg (by omega : ¬ (128 : Nat) = 0), if_pos (by omega : (128 : Nat) < needed)]
    have hrc0 : ceph_get_file_pool_name_core needed 0 = (needed : Int) := by
      unfold ceph_get_file_pool_name_core
      rw [if_pos rfl]
    have hrcx : ceph_get_file_pool_name_core needed needed = (needed : Int) := by
      unfold ceph_get_file_pool_name_core
      rw [if_neg (by omega : ¬ needed = 0), if_neg (by omega : ¬ needed < needed)]
    show pool_name_loop needed pool alloc (f + 3 + 1) 128 1 = some (.ok pool)
    rw [pool_name_loop.eq_2, hrc,
      if_pos (show (-ERANGE : Int) = -ERANGE from rfl)]
    show pool_name_loop needed pool alloc (f + 2 + 1) 0 1 = some (.ok pool)
    rw [pool_name_loop.eq_2, hrc0, if_neg hne, if_neg hneg,
      if_pos (show (0 : Nat) = 0 from rfl), halloc 1,
      if_pos (show true = true from rfl)]
    show pool_name_loop needed pool alloc (f + 1 + 1) ((needed : Int)).toNat 2 = some (.ok pool)
    rw [Int.toNat_natCast needed, pool_name_loop.eq_2, hrcx, if_neg hne, if_neg hneg]
    rw [if_neg (show ¬ needed = 0 by omega)]

/-- The pool-name probe loop reports OutOfMemory when the exact-size
reallocation fails. -/
theorem pool_name_loop_oom (needed : Nat) (pool : List Char) (alloc : Nat → Bool)
    (h128 : 128 < needed) (hfail : alloc 1 = false) :
    ∀ fuel, 2 ≤ fuel → pool_name_loop needed pool alloc fuel 128 1 =
      some (.error .outOfMemory) := by
  intro fuel hf
  obtain ⟨f, rfl⟩ : ∃ f, fuel = f + 2 := ⟨fuel - 2, by omega⟩
  have hne : ¬ ((needed : Int) = -ERANGE) := by simp [ERANGE]
  have hneg : ¬ ((needed : Int) < 0) := by omega
  have hrc : ceph_get_file_pool_name_core needed 128 = -ERANGE := by
    unfold ceph_get_file_pool_name_core
    rw [if_neg (by omega : ¬ (128 : Nat) = 0), if_pos h128]
  have hrc0 : ceph_get_file_pool_name_core needed 0 = (needed : Int) := by
    unfold ceph_get_file_pool_name_core
    rw [if_pos rfl]
  show pool_name_loop needed pool alloc (f + 1 + 1) 128 1 = some (.error .outOfMemory)
  rw [pool_name_loop.eq_2, hrc, if_pos (show (-ERANGE : Int) = -ERANGE from rfl)]
  show pool_name_loop needed pool alloc (f + 1) 0 1 = some (.error .outOfMemory)
  rw [pool_name_loop.eq_2, hrc0, if_neg hne, if_neg hneg,
    if_pos (show (0 : Nat) = 0 from rfl), hfail]
  rfl

/-- The listdir getdnames loop reports OutOfMemory (after closing the
cursor) when the allocation of a doubled buffer fails. -/
theorem listdir_loop_alloc_fail (alloc : Nat → Bool) (c : DirCursor) (e : List Char)
    (rest : List (List Char)) (buflen attempt fuel : Nat)
    (acc : List (List Char))
    (hdrop : (cursorEntries c.dir).drop c.pos = e :: rest)
    (hsmall : buflen < packedLen e)
    (hfail : alloc attempt = false) :
    listdir_loop alloc (fuel + 1) c buflen attempt acc =
      some (.error .outOfMemory, true) := by
  rw [listdir_loop.eq_2, getdnames_too_small c buflen e rest hdrop hsmall]
  simp [hfail]

/-- C6: every variable-length-result operation follows probe-then-fetch —
`conf_get` starts at 128 bytes and doubles on the size-insufficient signal,
`listxattr`/`llistxattr` start at 1024 bytes and double, `listdir` name
fetching starts at 256 bytes and doubles, and `get_file_pool_name` starts at
128 bytes and reallocates to the exact size reported by a zero-length probe;
each returns the complete result when allocations succeed and fails with the
out-of-memory condition when any allocation in the loop (or before it)
fails. -/
theorem c6_probe_then_fetch_growth :
    (∀ (v : List Char) (alloc : Nat → Bool) (opt : String) (k fuel : Nat),
      (∀ i, alloc i = true) → v.length + 1 ≤ 128 * 2 ^ k → k < fuel →
      ∃ b, native_ceph_conf_get (some v) alloc fuel (some opt) =
        (some (.ok (some v, b)), true) ∧ v.length + 1 ≤ b) ∧
    (∀ (v : List Char) (alloc : Nat → Bool) (opt : String) (gap fuel : Nat),
      (∀ i, 1 ≤ i → i < 1 + gap → alloc i = true) → alloc 0 = true →
      alloc (1 + gap) = false →
      (∀ s, s ≤ gap → 128 * 2 ^ s < v.length + 1) → gap < fuel →
      native_ceph_conf_get (some v) alloc fuel (some opt) =
        (some (.error .outOfMemory), true)) ∧
    (∀ v alloc fuel (opt : String), alloc 0 = false →
      native_ceph_conf_get v alloc fuel (some opt) = (some (.error .outOfMemory), false)) ∧
    (∀ (xs : List (List Char)) (alloc : Nat → Bool) (p : String) (k fuel : Nat),
      (∀ s ∈ xs, NUL ∉ s) → (∀ i, alloc i = true) →
      (packNames xs).length ≤ 1024 * 2 ^ k → k < fuel →
      native_ceph_listxattr xs alloc fuel true (some p) = (some (.ok xs), true) ∧
      native_ceph_llistxattr xs alloc fuel true (some p) = (some (.ok xs), true)) ∧
    (∀ (xs : List (List Char)) (alloc : Nat → Bool) (p : String) (gap fuel : Nat),
      (∀ i, 1 ≤ i → i < 1 + gap → alloc i = true) → alloc 0 = true →
      alloc (1 + gap) = false →
      (∀ s, s ≤ gap → 1024 * 2 ^ s < (packNames xs).length) → gap < fuel →
      native_ceph_listxattr xs alloc fuel true (some p) =
        (some (.error .outOfMemory), true)) ∧
    (∀ xs alloc fuel (p : String), alloc 0 = false →
      native_ceph_listxattr xs alloc fuel true (some p) =
        (some (.error .outOfMemory), false)) ∧
    (∀ (needed : Nat) (pool : List Char) (alloc : Nat → Bool) (fd : Int) (fuel : Nat),
      (∀ i, alloc i = true) → 4 ≤ fuel →
      native_ceph_get_file_pool_name needed pool alloc fuel true fd =
        (some (.ok pool), true)) ∧
    (∀ (needed : Nat) (pool : List Char) (alloc : Nat → Bool) (fd : Int) (fuel : Nat),
      128 < needed → alloc 0 = true → alloc 1 = false → 2 ≤ fuel →
      native_ceph_get_file_pool_name needed pool alloc fuel true fd =
        (some (.error .outOfMemory), true)) ∧
    (∀ needed pool alloc (fd : Int) fuel, alloc 0 = false →
      native_ceph_get_file_pool_name needed pool alloc fuel true fd =
        (some (.error .outOfMemory), false)) ∧
    (∀ (alloc : Nat → Bool) (c : DirCursor) (e : List Char) (rest : List (List Char))
      (buflen attempt fuel : Nat) (acc : List (List Char)),
      (cursorEntries c.dir).drop c.pos = e :: rest → buflen < packedLen e →
      alloc attempt = false →
      listdir_loop alloc (fuel + 1) c buflen attempt acc =
        some (.error .outOfMemory, true)) := by
  refine ⟨?_, ?_, ?_, ?_, ?_, ?_, ?_, ?_, ?_, ?_⟩
  · intro v alloc opt k fuel halloc hsize hfuel
    obtain ⟨f, rfl⟩ : ∃ f, fuel = f + 1 := ⟨fuel - 1, by omega⟩
    have hsize2 : v.length + 1 ≤ 128 * 2 ^ f := by
      calc v.length + 1 ≤ 128 * 2 ^ k := hsize
        _ ≤ 128 * 2 ^ f := by
          have := Nat.pow_le_pow_right (show 1 ≤ 2 by norm_num) (show k ≤ f by omega)
          omega
    obtain ⟨b, hb1, hb2⟩ := conf_get_loop_success v alloc halloc f 128 1 hsize2
    refine ⟨b, ?_, hb2⟩
    simp only [native_ceph_conf_get, halloc 0, if_true, hb1]
  · intro v alloc opt gap fuel h1 h0 h2 h3 hfuel
    simp only [native_ceph_conf_get, h0, if_true]
    rw [conf_get_loop_oom v alloc gap fuel 128 1 h1 (by simpa using h2) h3 hfuel]
  · intro v alloc fuel opt h
    simp [native_ceph_conf_get, h]
  · intro xs alloc p k fuel hnul halloc hsize hfuel
    obtain ⟨f, rfl⟩ : ∃ f, fuel = f + 1 := ⟨fuel - 1, by omega⟩
    have hsize2 : (packNames xs).length ≤ 1024 * 2 ^ f := by
      calc (packNames xs).length ≤ 1024 * 2 ^ k := hsize
        _ ≤ 1024 * 2 ^ f := by
          have := Nat.pow_le_pow_right (show 1 ≤ 2 by norm_num) (show k ≤ f by omega)
          omega
    have hloop := listxattr_loop_success xs alloc halloc hnul f 1024 1 hsize2
    constructor <;> simp only [native_ceph_listxattr, native_ceph_llistxattr,
      Bool.not_true, Bool.false_eq_true, if_false, halloc 0, if_true, hloop]
  · intro xs alloc p gap fuel h1 h0 h2 h3 hfuel
    simp only [native_ceph_listxattr, Bool.not_true, Bool.false_eq_true, if_false,
      h0, if_true]
    rw [listxattr_loop_oom xs alloc gap fuel 1024 1 h1 (by simpa using h2) h3 hfuel]
  · intro xs alloc fuel p h
    simp [native_ceph_listxattr, h]
  · intro needed pool alloc fd fuel halloc hfuel
    simp only [native_ceph_get_file_pool_name, Bool.not_true, Bool.false_eq_true, if_false,
      halloc 0, if_true]
    rw [pool_name_loop_success needed pool alloc halloc fuel hfuel]
  · intro needed pool alloc fd fuel h128 h0 h1 hfuel
    simp only [native_ceph_get_file_pool_name, Bool.not_true, Bool.false_eq_true, if_false,
      h0, if_true]
    rw [pool_name_loop_oom needed pool alloc h128 h1 fuel hfuel]
  · intro needed pool alloc fd fuel h
    simp [native_ceph_get_file_pool_name, h]
  · exact listdir_loop_alloc_fail

/-- C6 witness: concrete instances of every hypothesis-bearing conjunct. -/
theorem c6_probe_then_fetch_witness :
    (∃ b, native_ceph_conf_get (some ['v']) (fun _ => true) 1 (some "opt") =
      (some (.ok (some ['v'], b)), true) ∧ 2 ≤ b) ∧
    native_ceph_conf_get (some (List.replicate 128 'v')) (fun i => decide (i = 0)) 1
      (some "opt") = (some (.error .outOfMemory), true) ∧
    native_ceph_conf_get (some ['v']) (fun _ => false) 1 (some "opt") =
      (some (.error .outOfMemory), false) ∧
    native_ceph_listxattr [['a']] (fun _ => true) 1 true (some "p") =
      (some (.ok [['a']]), true) ∧
    native_ceph_llistxattr [['a']] (fun _ => true) 1 true (some "p") =
      (some (.ok [['a']]), true) ∧
    native_ceph_get_file_pool_name 5 ['p'] (fun _ => true) 4 true 3 =
      (some (.ok ['p']), true) ∧
    native_ceph_get_file_pool_name 200 ['p'] (fun i => decide (i = 0)) 2 true 3 =
      (some (.error .outOfMemory), true) ∧
    listdir_loop (fun _ => false) 1 (ceph_opendir_core ⟨[]⟩) 1 1 [] =
      some (.error .outOfMemory, true) := by
  have h := c6_probe_then_fetch_growth
  obtain ⟨h1, h2, h3, h4, h5, h6, h7, h8, h9, h10⟩ := h
  refine ⟨?_, ?_, h3 (some ['v']) (fun _ => false) 1 "opt" rfl, ?_, ?_, ?_, ?_, ?_⟩
  · obtain ⟨b, hb1, hb2⟩ := h1 ['v'] (fun _ => true) "opt" 0 1 (fun _ => rfl)
      (by norm_num) (by norm_num)
    exact ⟨b, hb1, hb2⟩
  · exact h2 (List.replicate 128 'v') (fun i => decide (i = 0)) "opt" 0 1
      (fun i ha hb => by omega)
      (by decide) (by decide)
      (fun s hs => by
        have h0 : s = 0 := by omega
        rw [h0]
        simp)
      (by norm_num)
  · exact (h4 [['a']] (fun _ => true) "p" 0 1 (by decide) (fun _ => rfl)
      (by decide) (by norm_num)).1
  · exact (h4 [['a']] (fun _ => true) "p" 0 1 (by decide) (fun _ => rfl)
      (by decide) (by norm_num)).2
  · exact h7 5 ['p'] (fun _ => true) 3 4 (fun _ => rfl) (by norm_num)
  · exact h8 200 ['p'] (fun i => decide (i = 0)) 3 2 (by norm_num) (by decide) (by decide)
      (by norm_num)
  · exact h10 (fun _ => false) (ceph_opendir_core ⟨[]⟩) dotName [dotdotName] 1 1 0 []
      (by decide) (by decide) rfl

/-- Every exit the listdir getdnames loop takes — end of directory, or an
allocation failure — runs `ceph_closedir` (its exit flag is `true`). -/
theorem listdir_loop_closed (alloc : Nat → Bool) :
    ∀ (fuel : Nat) (c : DirCursor) (buflen attempt : Nat)
      (acc : List (List Char)) (r : Except JErr (List (List Char)) × Bool),
      listdir_loop alloc fuel c buflen attempt acc = some r → r.2 = true := by
  intro fuel
  induction fuel with
  | zero => intro c buflen attempt acc r h; exact absurd h (by simp [listdir_loop])
  | succ fuel ih =>
    intro c buflen attempt acc r h
    rw [listdir_loop.eq_2] at h
    split at h
    · split at h
      · exact ih _ _ _ _ _ h
      · injection h with h2
        rw [← h2]
    · simp only at h
      split at h
      · injection h with h2
        rw [← h2]
      · exact ih _ _ _ _ _ h

/-- Doubling phase: if the first remaining entry fits after `k` doublings,
reaching it reduces to the continuation at a sufficient buffer size. -/
theorem listdir_loop_double (alloc : Nat → Bool) (halloc : ∀ i, alloc i = true)
    (c : DirCursor) (e : List Char) (rest : List (List Char))
    (hdrop : (cursorEntries c.dir).drop c.pos = e :: rest)
    (R : Except JErr (List (List Char)) × Bool) (acc : List (List Char)) :
    ∀ (k buflen attempt : Nat), 0 < buflen → packedLen e ≤ buflen * 2 ^ k →
      (∀ b2 a2, packedLen e ≤ b2 →
        ∃ fuel, listdir_loop alloc fuel c b2 a2 acc = some R) →
      ∃ fuel, listdir_loop alloc fuel c buflen attempt acc = some R := by
  intro k
  induction k with
  | zero =>
    intro buflen attempt hb hfit hcont
    exact hcont buflen attempt (by simpa using hfit)
  | succ k ih =>
    intro buflen attempt hb hfit hcont
    by_cases hf : packedLen e ≤ buflen
    · exact hcont buflen attempt hf
    · have hfit2 : packedLen e ≤ buflen * 2 * 2 ^ k := by
        rw [pow_succ] at hfit
        calc packedLen e ≤ buflen * (2 ^ k * 2) := hfit
          _ = buflen * 2 * 2 ^ k := by ring
      obtain ⟨fuel, hfuel⟩ := ih (buflen * 2) (attempt + 1) (by omega) hfit2 hcont
      refine ⟨fuel + 1, ?_⟩
      simp only [listdir_loop, getdnames_too_small c buflen e rest hdrop (by omega),
        halloc attempt, if_true]
      exact hfuel

/-- With successful allocations the listdir loop — doubling as needed —
collects the dot-filtered parse of every packed chunk, i.e. exactly the
filtered full enumeration from the cursor position. -/
theorem listdir_loop_complete (alloc : Nat → Bool) (halloc : ∀ i, alloc i = true) :
    ∀ (N : Nat) (d : DirState) (pos buflen attempt : Nat) (acc : List (List Char)),
      ((cursorEntries d).drop pos).length ≤ N →
      0 < buflen →
      (∀ s ∈ cursorEntries d, NUL ∉ s) →
      ∃ fuel, listdir_loop alloc fuel ⟨d, pos⟩ buflen attempt acc =
        some (.ok (acc ++ ((cursorEntries d).drop pos).filter keepName), true) := by
  intro N
  induction N with
  | zero =>
    intro d pos buflen attempt acc hlen hb hnul
    have hdrop : (cursorEntries d).drop pos = [] := by
      cases hd : (cursorEntries d).drop pos with
      | nil => rfl
      | cons x xs => rw [hd] at hlen; simp at hlen
    refine ⟨1, ?_⟩
    have hgd : ceph_getdnames_core ⟨d, pos⟩ buflen = (.ok [], ⟨d, pos⟩) := by
      simp only [ceph_getdnames_core, hdrop]
    rw [listdir_loop.eq_2, hgd]
    simp [hdrop, packNames]
  | succ N ih =>
    intro d pos buflen attempt acc hlen hb hnul
    cases hdrop : (cursorEntries d).drop pos with
    | nil =>
      refine ⟨1, ?_⟩
      have hgd : ceph_getdnames_core ⟨d, pos⟩ buflen = (.ok [], ⟨d, pos⟩) := by
        simp only [ceph_getdnames_core, hdrop]
      rw [listdir_loop.eq_2, hgd]
      simp [hdrop, packNames]
    | cons e rest =>
      have hmem_e : e ∈ cursorEntries d :=
        List.drop_subset pos _ (hdrop ▸ List.mem_cons_self e rest)
      apply listdir_loop_double alloc halloc ⟨d, pos⟩ e rest (by simpa using hdrop) _ acc
        (packedLen e) buflen attempt hb
      · calc packedLen e ≤ 2 ^ packedLen e := Nat.le_of_lt (Nat.lt_two_pow _)
          _ = 1 * 2 ^ packedLen e := by ring
          _ ≤ buflen * 2 ^ packedLen e := by
              have := Nat.mul_le_mul_right (2 ^ packedLen e) (show 1 ≤ buflen by omega)
              omega
      · intro b2 a2 hfit
        have htf : takeFit rest (b2 - packedLen e) ++
            rest.drop (takeFit rest (b2 - packedLen e)).length = rest :=
          takeFit_append rest (b2 - packedLen e)
        have hchunknul : ∀ s ∈ e :: takeFit rest (b2 - packedLen e), NUL ∉ s := by
          intro s hs
          rcases hs with _ | hs2
          · exact hnul e hmem_e
          · rename_i hs3
            have : s ∈ rest := takeFit_subset rest (b2 - packedLen e) s hs3
            have hmem : s ∈ cursorEntries d :=
              List.drop_subset pos _ (hdrop ▸ List.mem_cons_of_mem e this)
            exact hnul s hmem
        have hLpos : 1 ≤ (e :: takeFit rest (b2 - packedLen e)).length := by simp
        have hd2 : (cursorEntries d).drop
            (pos + (e :: takeFit rest (b2 - packedLen e)).length) =
            rest.drop (takeFit rest (b2 - packedLen e)).length := by
          rw [← List.drop_drop, hdrop]
          simp [List.drop_succ_cons]
        have h1 : (List.drop pos (cursorEntries d)).length = rest.length + 1 := by
          rw [hdrop]; simp
        have hlen2 : ((cursorEntries d).drop
            (pos + (e :: takeFit rest (b2 - packedLen e)).length)).length ≤ N := by
          rw [hd2, List.length_drop]
          omega
        obtain ⟨fuel2, hf2⟩ := ih d (pos + (e :: takeFit rest (b2 - packedLen e)).length)
          b2 a2 (acc ++ (e :: takeFit rest (b2 - packedLen e)).filter keepName)
          hlen2 (by have hp := hfit; simp [packedLen] at hp; omega) hnul
        have hne0 : ¬ ((packNames (e :: takeFit rest (b2 - packedLen e))).length = 0) := by
          rw [packNames_length]
          simp [packedLen]
        have hfil : List.filter keepName (takeFit rest (b2 - packedLen e)) ++
            List.filter keepName (rest.drop (takeFit rest (b2 - packedLen e)).length) =
            List.filter keepName rest := by
          have hc := congrArg (List.filter keepName) htf
          rwa [List.filter_append] at hc
        have hacc : (acc ++ List.filter keepName (e :: takeFit rest (b2 - packedLen e))) ++
            List.filter keepName (rest.drop (takeFit rest (b2 - packedLen e)).length) =
            acc ++ List.filter keepName (e :: rest) := by
          by_cases hke : keepName e = true
          · simp [List.filter_cons, hke, List.append_assoc, hfil]
          · simp [List.filter_cons, hke, List.append_assoc, hfil]
        refine ⟨fuel2 + 1, ?_⟩
        simp only [listdir_loop,
          getdnames_first_fit ⟨d, pos⟩ b2 e rest (by simpa using hdrop) hfit]
        rw [if_neg hne0, parseNames_packNames _ hchunknul]
        rw [← hacc]
        rw [hd2] at hf2
        exact hf2

/-- C9: `listdir` returns exactly the names of the underlying enumeration
with `"."` and `".."` filtered out, in delivery order — even though the bulk
enumeration delivers them first — and the cursor is closed on every exit
path of the loop, including the error (OutOfMemory) exits; when `opendir`
itself fails no cursor exists and none is closed. -/
theorem c9_listdir_filters_and_closes :
    (∀ (d : DirState) (p : String) (alloc : Nat → Bool),
      (∀ i, alloc i = true) → (∀ s ∈ d.names, NUL ∉ s) →
      ∃ fuel, native_ceph_listdir true (some p) (.ok d) alloc fuel =
        (some (.ok (d.names.filter keepName), true), true)) ∧
    (∀ (alloc : Nat → Bool) (fuel : Nat) (c : DirCursor) (buflen attempt : Nat)
      (acc : List (List Char)) (r : Except JErr (List (List Char)) × Bool),
      listdir_loop alloc fuel c buflen attempt acc = some r → r.2 = true) ∧
    (∀ (p : String) (rc : Int) (alloc : Nat → Bool) (fuel : Nat),
      native_ceph_listdir true (some p) (.error rc) alloc fuel =
        (some (.error (handle_error rc), false), true)) := by
  refine ⟨?_, fun alloc => listdir_loop_closed alloc, fun p rc alloc fuel => rfl⟩
  intro d p alloc halloc hnul
  have hnul2 : ∀ s ∈ cursorEntries d, NUL ∉ s := by
    intro s hs
    simp only [cursorEntries, List.mem_cons] at hs
    rcases hs with rfl | rfl | hs3
    · decide
    · decide
    · exact hnul s hs3
  obtain ⟨fuel, hfuel⟩ := listdir_loop_complete alloc halloc (cursorEntries d).length d 0
    256 1 [] (by simp) (by norm_num) hnul2
  refine ⟨fuel, ?_⟩
  simp only [native_ceph_listdir, Bool.not_true, Bool.false_eq_true, if_false,
    halloc 0, if_true]
  have hopen : ceph_opendir_core d = ⟨d, 0⟩ := rfl
  rw [hopen, hfuel]
  have hk1 : keepName dotName = false := by decide
  have hk2 : keepName dotdotName = false := by decide
  simp [cursorEntries, List.filter_cons, hk1, hk2]

/-- C9 witness: a one-file directory listed completely, and one concrete
loop exit checked closed. -/
theorem c9_listdir_witness :
    (∃ fuel, native_ceph_listdir true (some "p") (.ok ⟨[['f']]⟩) (fun _ => true) fuel =
      (some (.ok [['f']], true), true)) ∧
    ((Except.ok ([] : List (List Char)), true) :
      Except JErr (List (List Char)) × Bool).2 = true := by
  constructor
  · obtain ⟨fuel, hf⟩ := c9_listdir_filters_and_closes.1 ⟨[['f']]⟩ "p" (fun _ => true) (fun _ => rfl) (by decide)
    exact ⟨fuel, hf⟩
  · exact c9_listdir_filters_and_closes.2.1 (fun _ => true) 2 (ceph_opendir_core ⟨[]⟩) 256 1 []
      (.ok [], true) rfl
